import Mathlib

/-!
Verification development for the HippoChat room/session relay (src/server.js).

The server keeps three global maps (server.js lines 13-15):
  rooms        : Map roomId -> Set of websocket connections
  roomCreators : Map roomId -> creator display name
  userRooms    : Map connection -> roomId
and additionally stores `ws.roomId` / `ws.username` fields directly on each
connection object.  We model connections by natural-number identifiers and
each map by a Lean function into `Option`.  The five message handlers
(`handleCreateRoom`, `handleJoinRoom`, `handleChatMessage`, `handleLeaveRoom`,
`handleUserDisconnect`), the fan-out (`broadcastToRoom`) and the periodic
empty-room reaper are translated statement by statement.  Handler outputs
(`ws.send` and broadcast deliveries) are collected, in emission order, as a
list of (recipient, message) pairs.
-/

namespace HippoChat

/-- Connections are identified by reference equality in JS; we use `Nat` ids. -/
abbrev ConnId := Nat

/-- Transport-level environment for one handler invocation: whether each
connection's channel is currently open (`readyState === WebSocket.OPEN`),
whether a `send` to it succeeds (rather than throwing), and the current
`Date.now()` clock value. -/
structure Env where
  isOpen : ConnId → Bool
  sendOk : ConnId → Bool
  now : Nat

/-- The client-supplied chat payload (`message.message` in `handleChatMessage`),
an object with at least an `author`; we model an `author` and a `text` field. -/
structure ChatPayload where
  author : String
  text : String
deriving DecidableEq

/-- The enhanced message built at server.js lines 256-260:
`{...chatMessage, serverTimestamp: Date.now(), roomId: roomId}`. -/
structure EnhancedMsg where
  author : String
  text : String
  serverTimestamp : Nat
  roomId : String
deriving DecidableEq

/-- Server-to-client messages, one constructor per JSON shape the server emits.
`user_left_switch` is the count-less `user_left` sent when a connection switches
rooms inside `handleCreateRoom`/`handleJoinRoom`; `user_left` is the variant
with `participantCount` sent by `handleLeaveRoom` (whose `username` field can
be `null`); `user_left_disc` is the disconnect variant with `reason`. -/
inductive SMsg where
  | error (msg : String)
  | room_created (roomId username : String)
  | join_success (roomId username : String) (participantCount : Nat)
  | join_error (roomId msg : String)
  | user_joined_create (roomId username : String)
  | user_joined (roomId username : String) (participantCount : Nat)
  | user_left_switch (roomId username : String)
  | user_left (roomId : String) (username : Option String) (participantCount : Nat)
  | user_left_disc (roomId username : String) (participantCount : Nat)
  | chat_message (roomId : String) (payload : EnhancedMsg)
  | leave_success (roomId : String)
  | pong
deriving DecidableEq

/-- The server's global mutable state: the three maps of server.js lines 13-15
plus the per-connection `ws.roomId` / `ws.username` fields. -/
structure ServerState where
  rooms : String → Option (List ConnId)
  roomCreators : String → Option String
  userRooms : ConnId → Option String
  wsRoomId : ConnId → Option String
  wsUsername : ConnId → Option String

/-- The state at server start: every map empty, every field unset. -/
def initState : ServerState :=
  { rooms := fun _ => none
    roomCreators := fun _ => none
    userRooms := fun _ => none
    wsRoomId := fun _ => none
    wsUsername := fun _ => none }

/-- The member set of a room (empty when the room is absent). -/
def members (s : ServerState) (roomId : String) : List ConnId :=
  (s.rooms roomId).getD []

/-- `rooms.get(roomId).delete(ws)`. -/
def roomDel (s : ServerState) (roomId : String) (ws : ConnId) : ServerState :=
  { s with rooms := fun r =>
      if r = roomId then (s.rooms r).map (fun l => l.filter (fun c => c != ws))
      else s.rooms r }

/-- `rooms.get(roomId).add(ws)` — a JS Set appends a genuinely new element. -/
def roomAdd (s : ServerState) (roomId : String) (ws : ConnId) : ServerState :=
  { s with rooms := fun r =>
      if r = roomId then (s.rooms r).map (fun l => if ws ∈ l then l else l ++ [ws])
      else s.rooms r }

/-- `userRooms.delete(ws)`. -/
def unbind (s : ServerState) (ws : ConnId) : ServerState :=
  { s with userRooms := fun x => if x = ws then none else s.userRooms x }

/-- `userRooms.set(ws, roomId); ws.roomId = roomId; ws.username = username`
(server.js lines 123-125 and 206-208, always executed together). -/
def bindConn (s : ServerState) (ws : ConnId) (roomId username : String) : ServerState :=
  { s with
    userRooms := fun x => if x = ws then some roomId else s.userRooms x
    wsRoomId := fun x => if x = ws then some roomId else s.wsRoomId x
    wsUsername := fun x => if x = ws then some username else s.wsUsername x }

/-- `ws.roomId = null; ws.username = null` (server.js lines 295-296). -/
def clearWsFields (s : ServerState) (ws : ConnId) : ServerState :=
  { s with
    wsRoomId := fun x => if x = ws then none else s.wsRoomId x
    wsUsername := fun x => if x = ws then none else s.wsUsername x }

/-- `rooms.set(roomId, new Set()); roomCreators.set(roomId, username)`
(server.js lines 99-100). -/
def createRoomEntry (s : ServerState) (roomId username : String) : ServerState :=
  { s with
    rooms := fun r => if r = roomId then some [] else s.rooms r
    roomCreators := fun r => if r = roomId then some username else s.roomCreators r }

/-- The side effect of a failed `client.send` inside a broadcast
(server.js lines 347-348): `room.delete(client); userRooms.delete(client)`. -/
def pruneOne (s : ServerState) (roomId : String) (c : ConnId) : ServerState :=
  unbind (roomDel s roomId c) c

/-- One iteration of the `room.forEach(client => ...)` loop in
`broadcastToRoom` (server.js lines 339-351): skip the excluded sender and any
client whose channel is not open; otherwise try to send, and on failure prune
the client from the room and the registry. -/
def broadcastStep (env : Env) (roomId : String) (msg : SMsg) (exclude : Option ConnId)
    (acc : ServerState × List (ConnId × SMsg)) (client : ConnId) :
    ServerState × List (ConnId × SMsg) :=
  if (some client != exclude) && env.isOpen client then
    if env.sendOk client then (acc.1, acc.2 ++ [(client, msg)])
    else (pruneOne acc.1 roomId client, acc.2)
  else acc

/-- `broadcastToRoom(roomId, message, excludeWs)` (server.js lines 333-354).
Returns the updated state together with the deliveries made, in order. -/
def broadcastToRoom (env : Env) (s : ServerState) (roomId : String) (msg : SMsg)
    (exclude : Option ConnId) : ServerState × List (ConnId × SMsg) :=
  match s.rooms roomId with
  | none => (s, [])
  | some room => room.foldl (broadcastStep env roomId msg exclude) (s, [])

/-- The remove-from-previous-room step of `handleCreateRoom` (server.js lines
104-119): if the connection is registered in a previous room that still
exists, delete it there and broadcast `user_left` (carrying the NEW username
from the message) to that room, excluding the connection.  Note there is no
check that the previous room differs from the target. -/
def leavePrevCreate (env : Env) (s1 : ServerState) (ws : ConnId)
    (username : String) : ServerState × List (ConnId × SMsg) :=
  match s1.userRooms ws with
  | some prev =>
    if (s1.rooms prev).isSome then
      broadcastToRoom env (roomDel s1 prev ws) prev
        (SMsg.user_left_switch prev username) (some ws)
    else (s1, [])
  | none => (s1, [])

/-- The remove-from-previous-room step of `handleJoinRoom` (server.js lines
188-202), which additionally skips when the previous room equals the join
target. -/
def leavePrevJoin (env : Env) (s0 : ServerState) (ws : ConnId)
    (roomId username : String) : ServerState × List (ConnId × SMsg) :=
  match s0.userRooms ws with
  | some prev =>
    if (s0.rooms prev).isSome ∧ prev ≠ roomId then
      broadcastToRoom env (roomDel s0 prev ws) prev
        (SMsg.user_left_switch prev username) (some ws)
    else (s0, [])
  | none => (s0, [])

/-- `handleCreateRoom(ws, message)` (server.js lines 84-146).  An absent or
empty (falsy) `roomId`/`username` is modelled by the empty string.  Note the
room entry is created (if absent) before the leave-previous-room step, and no
display-name uniqueness check is performed. -/
def handleCreateRoom (env : Env) (s0 : ServerState) (ws : ConnId)
    (roomId username : String) : ServerState × List (ConnId × SMsg) :=
  if roomId = "" ∨ username = "" then
    (s0, [(ws, SMsg.error "Room ID and username are required")])
  else
    let s1 := if (s0.rooms roomId).isSome then s0 else createRoomEntry s0 roomId username
    let step2 := leavePrevCreate env s1 ws username
    let s3 := bindConn (roomAdd step2.1 roomId ws) ws roomId username
    let step4 := broadcastToRoom env s3 roomId
      (SMsg.user_joined_create roomId username) (some ws)
    (step4.1, step2.2 ++ [(ws, SMsg.room_created roomId username)] ++ step4.2)

/-- `handleJoinRoom(ws, message)` (server.js lines 148-230): reject when the
room is absent or when the username belongs to a *different* current member;
otherwise leave a (different) previous room, add and bind the joiner, send
`join_success` (with the post-add participant count) to the joiner, then
broadcast `user_joined` to the rest of the room. -/
def handleJoinRoom (env : Env) (s0 : ServerState) (ws : ConnId)
    (roomId username : String) : ServerState × List (ConnId × SMsg) :=
  if roomId = "" ∨ username = "" then
    (s0, [(ws, SMsg.error "Room ID and username are required")])
  else if (s0.rooms roomId).isNone then
    (s0, [(ws, SMsg.join_error roomId "Room not found")])
  else if ((s0.rooms roomId).getD []).any
      (fun c => (c != ws) && (s0.wsUsername c == some username)) then
    (s0, [(ws, SMsg.join_error roomId "Username already taken in this room")])
  else
    let step2 := leavePrevJoin env s0 ws roomId username
    let s3 := bindConn (roomAdd step2.1 roomId ws) ws roomId username
    let cnt := (members s3 roomId).length
    let step4 := broadcastToRoom env s3 roomId
      (SMsg.user_joined roomId username cnt) (some ws)
    (step4.1, step2.2 ++ [(ws, SMsg.join_success roomId username cnt)] ++ step4.2)

/-- `handleChatMessage(ws, message)` (server.js lines 232-271): require the
fields, re-check membership against the current member set, then broadcast the
enhanced message to the room excluding the sender. -/
def handleChatMessage (env : Env) (s0 : ServerState) (ws : ConnId)
    (roomId : String) (chatMessage : Option ChatPayload) :
    ServerState × List (ConnId × SMsg) :=
  if roomId = "" ∨ chatMessage = none then
    (s0, [(ws, SMsg.error "Room ID and message are required")])
  else
    match s0.rooms roomId with
    | none => (s0, [(ws, SMsg.error "You are not in this room")])
    | some room =>
      if ws ∈ room then
        let cm := chatMessage.getD { author := "", text := "" }
        let enhanced : EnhancedMsg :=
          { author := cm.author, text := cm.text, serverTimestamp := env.now, roomId := roomId }
        broadcastToRoom env s0 roomId (SMsg.chat_message roomId enhanced) (some ws)
      else (s0, [(ws, SMsg.error "You are not in this room")])

/-- `handleLeaveRoom(ws, message)` (server.js lines 273-306):
`const roomId = message.roomId || ws.roomId`; if that room exists, delete the
connection from its member set, unbind it, broadcast count-carrying
`user_left` (note: without excluding anyone), clear the connection's fields and
acknowledge with `leave_success`.  The explicit `message.roomId` is honoured
even when the connection is a member of a different room. -/
def handleLeaveRoom (env : Env) (s0 : ServerState) (ws : ConnId)
    (msgRoomId : String) : ServerState × List (ConnId × SMsg) :=
  match (if msgRoomId ≠ "" then some msgRoomId else s0.wsRoomId ws) with
  | none => (s0, [])
  | some roomId =>
    match s0.rooms roomId with
    | none => (s0, [])
    | some _ =>
      let s1 := unbind (roomDel s0 roomId ws) ws
      let cnt := (members s1 roomId).length
      let step := broadcastToRoom env s1 roomId
        (SMsg.user_left roomId (s0.wsUsername ws) cnt) none
      (clearWsFields step.1 ws, step.2 ++ [(ws, SMsg.leave_success roomId)])

/-- `handleUserDisconnect(ws)` (server.js lines 308-331): keyed on `ws.roomId`;
remove and unbind, then broadcast `user_left` with `reason: disconnected` only
when a display name had been recorded.  The `ws.roomId`/`ws.username` fields
are not cleared. -/
def handleUserDisconnect (env : Env) (s0 : ServerState) (ws : ConnId) :
    ServerState × List (ConnId × SMsg) :=
  match s0.wsRoomId ws with
  | none => (s0, [])
  | some roomId =>
    match s0.rooms roomId with
    | none => (s0, [])
    | some _ =>
      let s1 := unbind (roomDel s0 roomId ws) ws
      let cnt := (members s1 roomId).length
      match s0.wsUsername ws with
      | some u => broadcastToRoom env s1 roomId (SMsg.user_left_disc roomId u cnt) none
      | none => (s1, [])

/-- One pass of the empty-room reaper (server.js lines 373-390): every room
whose member set is empty is deleted together with its creator record. -/
def reaperSweep (s : ServerState) : ServerState :=
  { s with
    rooms := fun r => match s.rooms r with
      | some [] => none
      | x => x
    roomCreators := fun r => match s.rooms r with
      | some [] => none
      | _ => s.roomCreators r }

/-- States reachable from server start by any sequence of handler invocations,
standalone broadcasts and reaper sweeps, under arbitrary transport
environments. -/
inductive Reachable : ServerState → Prop where
  | init : Reachable initState
  | create {s} (env : Env) (ws : ConnId) (roomId username : String) :
      Reachable s → Reachable (handleCreateRoom env s ws roomId username).1
  | join {s} (env : Env) (ws : ConnId) (roomId username : String) :
      Reachable s → Reachable (handleJoinRoom env s ws roomId username).1
  | chat {s} (env : Env) (ws : ConnId) (roomId : String) (payload : Option ChatPayload) :
      Reachable s → Reachable (handleChatMessage env s ws roomId payload).1
  | leave {s} (env : Env) (ws : ConnId) (msgRoomId : String) :
      Reachable s → Reachable (handleLeaveRoom env s ws msgRoomId).1
  | disconnect {s} (env : Env) (ws : ConnId) :
      Reachable s → Reachable (handleUserDisconnect env s ws).1
  | bcast {s} (env : Env) (roomId : String) (msg : SMsg) (exclude : Option ConnId) :
      Reachable s → Reachable (broadcastToRoom env s roomId msg exclude).1
  | sweep {s} : Reachable s → Reachable (reaperSweep s)

/-- A benign transport environment: every channel open, every send succeeds. -/
def env0 : Env := { isOpen := fun _ => true, sendOk := fun _ => true, now := 0 }

/-! ### Characterizing the broadcast fan-out -/

/-- A client visited by the `forEach` loop gets pruned exactly when it is not
the excluded sender, its channel is open, and its `send` throws. -/
def shouldPrune (env : Env) (exclude : Option ConnId) (c : ConnId) : Bool :=
  (some c != exclude) && env.isOpen c && !env.sendOk c

/-- A client gets a delivery exactly when it is not the excluded sender, its
channel is open, and its `send` succeeds. -/
def willDeliver (env : Env) (exclude : Option ConnId) (c : ConnId) : Bool :=
  (some c != exclude) && env.isOpen c && env.sendOk c

/-- The state effect of broadcasting over snapshot `l`: prune every client of
`l` with a throwing send. -/
def pruneFold (env : Env) (exclude : Option ConnId) (roomId : String)
    (l : List ConnId) (st : ServerState) : ServerState :=
  l.foldl (fun s c => if shouldPrune env exclude c then pruneOne s roomId c else s) st

/-! ### Named intermediate states of the create/join success paths -/

/-- The room table state after the ensure-room step of `handleCreateRoom`
(server.js lines 97-102). -/
def createBase (s0 : ServerState) (roomId username : String) : ServerState :=
  if (s0.rooms roomId).isSome then s0 else createRoomEntry s0 roomId username

/-- The state after the add-member-and-bind step on `handleCreateRoom`'s
success path (server.js lines 122-125). -/
def createStateAfter (env : Env) (s0 : ServerState) (ws : ConnId)
    (roomId username : String) : ServerState :=
  bindConn
    (roomAdd (leavePrevCreate env (createBase s0 roomId username) ws username).1 roomId ws)
    ws roomId username

/-- The state after the add-member-and-bind step on `handleJoinRoom`'s
success path (server.js lines 205-208). -/
def joinStateAfter (env : Env) (s0 : ServerState) (ws : ConnId)
    (roomId username : String) : ServerState :=
  bindConn (roomAdd (leavePrevJoin env s0 ws roomId username).1 roomId ws) ws roomId username

/-- The participant count (`room.size`) reported by `join_success` and
`user_joined` (server.js lines 217 and 228). -/
def joinCount (env : Env) (s0 : ServerState) (ws : ConnId)
    (roomId username : String) : Nat :=
  (members (joinStateAfter env s0 ws roomId username) roomId).length

/-! ### Invariant predicates -/

/-- The registry-side binding/membership agreement: every connection bound in
`userRooms` is a member of the room it is bound to, and the `ws.roomId` field
agrees with the binding. -/
def BindingInv (s : ServerState) : Prop :=
  ∀ ws R, s.userRooms ws = some R →
    s.wsRoomId ws = some R ∧ ws ∈ members s R

/-- The same agreement for every connection except one (used across the
mid-transition window in which a handler has unhooked that one connection but
not yet re-bound it). -/
def BindingInvExcept (s : ServerState) (ws : ConnId) : Prop :=
  ∀ x R, x ≠ ws → s.userRooms x = some R →
    s.wsRoomId x = some R ∧ x ∈ members s R

/-- Display names recorded for a room's current members are pairwise
distinct. -/
def NamesDistinct (s : ServerState) (roomId : String) : Prop :=
  ((members s roomId).map s.wsUsername).Nodup

/-! ### Concrete traces used as witnesses and counterexamples -/

/-- Connection 0 has created room R1 as alice. -/
def stA : ServerState := (handleCreateRoom env0 initState 0 "R1" "alice").1

/-- After `stA`, connection 1 created room R2 as bob. -/
def stAB : ServerState := (handleCreateRoom env0 stA 1 "R2" "bob").1

/-- After `stA`, connection 1 joined R1 as bob. -/
def stAJ : ServerState := (handleJoinRoom env0 stA 1 "R1" "bob").1

/-- After `stA`, connection 0 left R1, leaving it empty. -/
def stEmpty : ServerState := (handleLeaveRoom env0 stA 0 "").1

/-- After `stA`, connection 1 sent `create_room` for the existing room R1
reusing the display name alice. -/
def stDup : ServerState := (handleCreateRoom env0 stA 1 "R1" "alice").1

/-- After `stAB`, connection 0 (bound to R1) sent `leave_room` naming R2. -/
def stForeign : ServerState := (handleLeaveRoom env0 stAB 0 "R2").1

/-- A transport environment in which connection 1's channel is not open. -/
def envClosed : Env := { isOpen := fun c => c != 1, sendOk := fun _ => true, now := 0 }

/-- A transport environment in which sends to connection 1 throw. -/
def envThrow : Env := { isOpen := fun _ => true, sendOk := fun c => c != 1, now := 0 }

theorem broadcastStep_eq (env : Env) (roomId : String) (msg : SMsg)
    (exclude : Option ConnId) (st : ServerState) (out : List (ConnId × SMsg))
    (c : ConnId) :
    broadcastStep env roomId msg exclude (st, out) c =
      ((if shouldPrune env exclude c then pruneOne st roomId c else st),
       out ++ (if willDeliver env exclude c then [(c, msg)] else [])) := by
  unfold broadcastStep shouldPrune willDeliver
  by_cases h1 : (some c != exclude) = true <;>
    by_cases h2 : env.isOpen c = true <;>
      by_cases h3 : env.sendOk c = true <;>
        simp [h1, h2, h3]

theorem foldl_broadcastStep (env : Env) (roomId : String) (msg : SMsg)
    (exclude : Option ConnId) (l : List ConnId) (st : ServerState)
    (out : List (ConnId × SMsg)) :
    l.foldl (broadcastStep env roomId msg exclude) (st, out) =
      (pruneFold env exclude roomId l st,
       out ++ (l.filter (willDeliver env exclude)).map (fun c => (c, msg))) := by
  induction l generalizing st out with
  | nil => simp [pruneFold]
  | cons c t ih =>
    rw [List.foldl_cons, broadcastStep_eq, ih]
    unfold pruneFold
    rw [List.foldl_cons, List.filter_cons]
    by_cases hd : willDeliver env exclude c = true <;> simp [hd]

theorem broadcastToRoom_eq (env : Env) (s : ServerState) (roomId : String)
    (msg : SMsg) (exclude : Option ConnId) (room : List ConnId)
    (h : s.rooms roomId = some room) :
    broadcastToRoom env s roomId msg exclude =
      (pruneFold env exclude roomId room s,
       (room.filter (willDeliver env exclude)).map (fun c => (c, msg))) := by
  unfold broadcastToRoom
  rw [h]
  exact foldl_broadcastStep env roomId msg exclude room s []

theorem broadcastToRoom_absent (env : Env) (s : ServerState) (roomId : String)
    (msg : SMsg) (exclude : Option ConnId) (h : s.rooms roomId = none) :
    broadcastToRoom env s roomId msg exclude = (s, []) := by
  unfold broadcastToRoom
  rw [h]

/-! Pointwise description of `pruneFold`. -/

theorem pruneFold_wsUsername (env : Env) (exclude : Option ConnId) (roomId : String)
    (l : List ConnId) (st : ServerState) :
    (pruneFold env exclude roomId l st).wsUsername = st.wsUsername := by
  induction l generalizing st with
  | nil => rfl
  | cons c t ih =>
    unfold pruneFold at ih ⊢
    rw [List.foldl_cons]
    by_cases h : shouldPrune env exclude c = true
    · rw [if_pos h, ih]; rfl
    · rw [if_neg h, ih]

theorem pruneFold_wsRoomId (env : Env) (exclude : Option ConnId) (roomId : String)
    (l : List ConnId) (st : ServerState) :
    (pruneFold env exclude roomId l st).wsRoomId = st.wsRoomId := by
  induction l generalizing st with
  | nil => rfl
  | cons c t ih =>
    unfold pruneFold at ih ⊢
    rw [List.foldl_cons]
    by_cases h : shouldPrune env exclude c = true
    · rw [if_pos h, ih]; rfl
    · rw [if_neg h, ih]

theorem pruneFold_roomCreators (env : Env) (exclude : Option ConnId) (roomId : String)
    (l : List ConnId) (st : ServerState) :
    (pruneFold env exclude roomId l st).roomCreators = st.roomCreators := by
  induction l generalizing st with
  | nil => rfl
  | cons c t ih =>
    unfold pruneFold at ih ⊢
    rw [List.foldl_cons]
    by_cases h : shouldPrune env exclude c = true
    · rw [if_pos h, ih]; rfl
    · rw [if_neg h, ih]

theorem pruneFold_rooms_other (env : Env) (exclude : Option ConnId) (roomId : String)
    (l : List ConnId) (st : ServerState) (r : String) (hr : r ≠ roomId) :
    (pruneFold env exclude roomId l st).rooms r = st.rooms r := by
  induction l generalizing st with
  | nil => rfl
  | cons c t ih =>
    unfold pruneFold at ih ⊢
    rw [List.foldl_cons]
    by_cases h : shouldPrune env exclude c = true
    · rw [if_pos h, ih]
      simp [pruneOne, unbind, roomDel, hr]
    · rw [if_neg h, ih]

theorem pruneFold_userRooms (env : Env) (exclude : Option ConnId) (roomId : String)
    (l : List ConnId) (st : ServerState) (x : ConnId) :
    (pruneFold env exclude roomId l st).userRooms x =
      if x ∈ l ∧ shouldPrune env exclude x = true then none else st.userRooms x := by
  induction l generalizing st with
  | nil => simp [pruneFold]
  | cons c t ih =>
    unfold pruneFold at ih ⊢
    rw [List.foldl_cons]
    by_cases hc : shouldPrune env exclude c = true
    · rw [if_pos hc, ih]
      by_cases hxt : x ∈ t ∧ shouldPrune env exclude x = true
      · rw [if_pos hxt, if_pos ⟨List.mem_cons_of_mem c hxt.1, hxt.2⟩]
      · rw [if_neg hxt]
        by_cases hxc : x = c
        · subst hxc
          simp [pruneOne, unbind, hc]
        · have : ¬(x ∈ c :: t ∧ shouldPrune env exclude x = true) := by
            intro hcon
            rcases List.mem_cons.mp hcon.1 with h1 | h1
            · exact hxc h1
            · exact hxt ⟨h1, hcon.2⟩
          rw [if_neg this]
          simp [pruneOne, unbind, roomDel, hxc]
    · rw [if_neg hc, ih]
      by_cases hxt : x ∈ t ∧ shouldPrune env exclude x = true
      · rw [if_pos hxt, if_pos ⟨List.mem_cons_of_mem c hxt.1, hxt.2⟩]
      · rw [if_neg hxt]
        have : ¬(x ∈ c :: t ∧ shouldPrune env exclude x = true) := by
          intro hcon
          rcases List.mem_cons.mp hcon.1 with h1 | h1
          · subst h1; exact hc hcon.2
          · exact hxt ⟨h1, hcon.2⟩
        rw [if_neg this]

theorem mem_members_roomDel (s : ServerState) (roomId : String) (ws : ConnId)
    (r : String) (x : ConnId) :
    x ∈ members (roomDel s roomId ws) r ↔
      x ∈ members s r ∧ (r = roomId → x ≠ ws) := by
  unfold members roomDel
  by_cases hr : r = roomId
  · subst hr
    cases h : s.rooms r <;> simp [h, List.mem_filter]
  · simp [hr]

theorem pruneFold_mem_room (env : Env) (exclude : Option ConnId) (roomId : String)
    (l : List ConnId) (st : ServerState) (x : ConnId) :
    x ∈ members (pruneFold env exclude roomId l st) roomId ↔
      x ∈ members st roomId ∧ ¬(x ∈ l ∧ shouldPrune env exclude x = true) := by
  induction l generalizing st with
  | nil => simp [pruneFold]
  | cons c t ih =>
    unfold pruneFold at ih ⊢
    rw [List.foldl_cons]
    by_cases hc : shouldPrune env exclude c = true
    · rw [if_pos hc, ih]
      have hmem := mem_members_roomDel st roomId c roomId x
      constructor
      · rintro ⟨hx, hnt⟩
        have hx2 : x ∈ members st roomId ∧ x ≠ c := by
          have := hmem.mp (by
            have : members (pruneOne st roomId c) roomId = members (roomDel st roomId c) roomId := rfl
            rw [this] at hx
            exact hx)
          exact ⟨this.1, this.2 rfl⟩
        refine ⟨hx2.1, ?_⟩
        intro hcon
        rcases List.mem_cons.mp hcon.1 with h1 | h1
        · exact hx2.2 h1
        · exact hnt ⟨h1, hcon.2⟩
      · rintro ⟨hx, hnl⟩
        have hxc : x ≠ c := by
          intro h; subst h
          exact hnl ⟨List.mem_cons_self x t, hc⟩
        refine ⟨?_, ?_⟩
        · have : x ∈ members (roomDel st roomId c) roomId :=
            hmem.mpr ⟨hx, fun _ => hxc⟩
          exact this
        · intro hcon
          exact hnl ⟨List.mem_cons_of_mem c hcon.1, hcon.2⟩
    · rw [if_neg hc, ih]
      constructor
      · rintro ⟨hx, hnt⟩
        refine ⟨hx, ?_⟩
        intro hcon
        rcases List.mem_cons.mp hcon.1 with h1 | h1
        · subst h1; exact hc hcon.2
        · exact hnt ⟨h1, hcon.2⟩
      · rintro ⟨hx, hnl⟩
        refine ⟨hx, ?_⟩
        intro hcon
        exact hnl ⟨List.mem_cons_of_mem c hcon.1, hcon.2⟩

theorem pruneFold_rooms_isSome (env : Env) (exclude : Option ConnId) (roomId : String)
    (l : List ConnId) (st : ServerState) (r : String) :
    ((pruneFold env exclude roomId l st).rooms r).isSome = (st.rooms r).isSome := by
  induction l generalizing st with
  | nil => rfl
  | cons c t ih =>
    unfold pruneFold at ih ⊢
    rw [List.foldl_cons]
    by_cases h : shouldPrune env exclude c = true
    · rw [if_pos h, ih]
      show (((roomDel st roomId c).rooms r).isSome) = _
      unfold roomDel
      by_cases hr : r = roomId
      · subst hr
        cases hx : st.rooms r <;> simp [hx]
      · simp [hr]
    · rw [if_neg h, ih]

/-- Every delivery produced by a broadcast goes to a member of the snapshot
that satisfies `willDeliver`, and carries the broadcast message. -/
theorem mem_broadcast_output (env : Env) (s : ServerState) (roomId : String)
    (msg : SMsg) (exclude : Option ConnId) (p : ConnId × SMsg)
    (hp : p ∈ (broadcastToRoom env s roomId msg exclude).2) :
    p.1 ∈ members s roomId ∧ willDeliver env exclude p.1 = true ∧ p.2 = msg := by
  cases h : s.rooms roomId with
  | none =>
    rw [broadcastToRoom_absent env s roomId msg exclude h] at hp
    simp at hp
  | some room =>
    rw [broadcastToRoom_eq env s roomId msg exclude room h] at hp
    simp only [List.mem_map, List.mem_filter] at hp
    rcases hp with ⟨c, ⟨hc1, hc2⟩, hc3⟩
    subst hc3
    exact ⟨by unfold members; rw [h]; exact hc1, hc2, rfl⟩

/-- Completeness: every member of the snapshot satisfying `willDeliver`
receives the broadcast message. -/
theorem broadcast_delivers (env : Env) (s : ServerState) (roomId : String)
    (msg : SMsg) (exclude : Option ConnId) (room : List ConnId)
    (h : s.rooms roomId = some room) (c : ConnId) (hc : c ∈ room)
    (hd : willDeliver env exclude c = true) :
    (c, msg) ∈ (broadcastToRoom env s roomId msg exclude).2 := by
  rw [broadcastToRoom_eq env s roomId msg exclude room h]
  simp only [List.mem_map, List.mem_filter]
  exact ⟨c, ⟨hc, hd⟩, rfl⟩

/-- A broadcast that excludes `ws` never delivers to `ws`, and every delivery
carries the broadcast message. -/
theorem broadcast_output_exclude (env : Env) (s : ServerState) (roomId : String)
    (msg : SMsg) (ws : ConnId) (p : ConnId × SMsg)
    (hp : p ∈ (broadcastToRoom env s roomId msg (some ws)).2) :
    p.1 ≠ ws ∧ p.2 = msg := by
  obtain ⟨_, hd, hm⟩ := mem_broadcast_output env s roomId msg (some ws) p hp
  refine ⟨?_, hm⟩
  intro hcon
  rw [hcon] at hd
  simp [willDeliver] at hd

/-- Open channel plus succeeding send plus being distinct from the excluded
sender means `willDeliver`. -/
theorem willDeliver_of (env : Env) (ws c : ConnId) (hne : c ≠ ws)
    (ho : env.isOpen c = true) (hs : env.sendOk c = true) :
    willDeliver env (some ws) c = true := by
  simp [willDeliver, ho, hs, hne]

/-! ### Path equations for the handlers -/

theorem leavePrevCreate_unregistered (env : Env) (s1 : ServerState) (ws : ConnId)
    (username : String) (h : s1.userRooms ws = none) :
    leavePrevCreate env s1 ws username = (s1, []) := by
  unfold leavePrevCreate
  rw [h]

theorem leavePrevCreate_has (env : Env) (s1 : ServerState) (ws : ConnId)
    (username prev : String) (h : s1.userRooms ws = some prev)
    (hh : (s1.rooms prev).isSome = true) :
    leavePrevCreate env s1 ws username =
      broadcastToRoom env (roomDel s1 prev ws) prev
        (SMsg.user_left_switch prev username) (some ws) := by
  unfold leavePrevCreate
  rw [h]
  exact if_pos hh

theorem leavePrevCreate_gone (env : Env) (s1 : ServerState) (ws : ConnId)
    (username prev : String) (h : s1.userRooms ws = some prev)
    (hh : (s1.rooms prev).isSome = false) :
    leavePrevCreate env s1 ws username = (s1, []) := by
  unfold leavePrevCreate
  rw [h]
  exact if_neg (by rw [hh]; exact Bool.false_ne_true)

theorem leavePrevJoin_unregistered (env : Env) (s0 : ServerState) (ws : ConnId)
    (roomId username : String) (h : s0.userRooms ws = none) :
    leavePrevJoin env s0 ws roomId username = (s0, []) := by
  unfold leavePrevJoin
  rw [h]

theorem leavePrevJoin_has (env : Env) (s0 : ServerState) (ws : ConnId)
    (roomId username prev : String) (h : s0.userRooms ws = some prev)
    (hh : (s0.rooms prev).isSome = true) (hne : prev ≠ roomId) :
    leavePrevJoin env s0 ws roomId username =
      broadcastToRoom env (roomDel s0 prev ws) prev
        (SMsg.user_left_switch prev username) (some ws) := by
  unfold leavePrevJoin
  rw [h]
  exact if_pos ⟨hh, hne⟩

theorem leavePrevJoin_skip (env : Env) (s0 : ServerState) (ws : ConnId)
    (roomId username prev : String) (h : s0.userRooms ws = some prev)
    (hh : ¬((s0.rooms prev).isSome = true ∧ prev ≠ roomId)) :
    leavePrevJoin env s0 ws roomId username = (s0, []) := by
  unfold leavePrevJoin
  rw [h]
  exact if_neg hh

theorem handleCreateRoom_run (env : Env) (s0 : ServerState) (ws : ConnId)
    (roomId username : String) (hr : roomId ≠ "") (hu : username ≠ "") :
    handleCreateRoom env s0 ws roomId username =
      ((broadcastToRoom env (createStateAfter env s0 ws roomId username) roomId
          (SMsg.user_joined_create roomId username) (some ws)).1,
       (leavePrevCreate env (createBase s0 roomId username) ws username).2
         ++ [(ws, SMsg.room_created roomId username)]
         ++ (broadcastToRoom env (createStateAfter env s0 ws roomId username) roomId
              (SMsg.user_joined_create roomId username) (some ws)).2) := by
  unfold handleCreateRoom
  exact if_neg (not_or.mpr ⟨hr, hu⟩)

theorem handleCreateRoom_missing (env : Env) (s0 : ServerState) (ws : ConnId)
    (roomId username : String) (h : roomId = "" ∨ username = "") :
    handleCreateRoom env s0 ws roomId username =
      (s0, [(ws, SMsg.error "Room ID and username are required")]) := by
  unfold handleCreateRoom
  exact if_pos h

theorem handleJoinRoom_missing (env : Env) (s0 : ServerState) (ws : ConnId)
    (roomId username : String) (h : roomId = "" ∨ username = "") :
    handleJoinRoom env s0 ws roomId username =
      (s0, [(ws, SMsg.error "Room ID and username are required")]) := by
  unfold handleJoinRoom
  exact if_pos h

theorem handleJoinRoom_notfound (env : Env) (s0 : ServerState) (ws : ConnId)
    (roomId username : String) (hr : roomId ≠ "") (hu : username ≠ "")
    (h : s0.rooms roomId = none) :
    handleJoinRoom env s0 ws roomId username =
      (s0, [(ws, SMsg.join_error roomId "Room not found")]) := by
  unfold handleJoinRoom
  rw [if_neg (not_or.mpr ⟨hr, hu⟩), h]
  exact if_pos rfl

theorem handleJoinRoom_taken (env : Env) (s0 : ServerState) (ws : ConnId)
    (roomId username : String) (room : List ConnId)
    (hr : roomId ≠ "") (hu : username ≠ "") (h : s0.rooms roomId = some room)
    (hcol : room.any (fun c => (c != ws) && (s0.wsUsername c == some username)) = true) :
    handleJoinRoom env s0 ws roomId username =
      (s0, [(ws, SMsg.join_error roomId "Username already taken in this room")]) := by
  unfold handleJoinRoom
  rw [if_neg (not_or.mpr ⟨hr, hu⟩), h]
  rw [if_neg (by simp)]
  exact if_pos hcol

theorem handleJoinRoom_run (env : Env) (s0 : ServerState) (ws : ConnId)
    (roomId username : String) (room : List ConnId)
    (hr : roomId ≠ "") (hu : username ≠ "") (h : s0.rooms roomId = some room)
    (hnocol : room.any (fun c => (c != ws) && (s0.wsUsername c == some username)) = false) :
    handleJoinRoom env s0 ws roomId username =
      ((broadcastToRoom env (joinStateAfter env s0 ws roomId username) roomId
          (SMsg.user_joined roomId username (joinCount env s0 ws roomId username))
          (some ws)).1,
       (leavePrevJoin env s0 ws roomId username).2
         ++ [(ws, SMsg.join_success roomId username (joinCount env s0 ws roomId username))]
         ++ (broadcastToRoom env (joinStateAfter env s0 ws roomId username) roomId
              (SMsg.user_joined roomId username (joinCount env s0 ws roomId username))
              (some ws)).2) := by
  unfold handleJoinRoom
  rw [if_neg (not_or.mpr ⟨hr, hu⟩), h]
  rw [if_neg (by simp)]
  have hd : ((some room).getD []).any
      (fun c => (c != ws) && (s0.wsUsername c == some username)) = false := hnocol
  rw [if_neg (by rw [hd]; exact Bool.false_ne_true)]
  rfl

theorem handleChatMessage_missing (env : Env) (s0 : ServerState) (ws : ConnId)
    (roomId : String) (payload : Option ChatPayload)
    (h : roomId = "" ∨ payload = none) :
    handleChatMessage env s0 ws roomId payload =
      (s0, [(ws, SMsg.error "Room ID and message are required")]) := by
  unfold handleChatMessage
  exact if_pos h

theorem handleChatMessage_noroom (env : Env) (s0 : ServerState) (ws : ConnId)
    (roomId : String) (payload : Option ChatPayload)
    (hr : roomId ≠ "") (hp : payload ≠ none) (h : s0.rooms roomId = none) :
    handleChatMessage env s0 ws roomId payload =
      (s0, [(ws, SMsg.error "You are not in this room")]) := by
  unfold handleChatMessage
  rw [if_neg (not_or.mpr ⟨hr, hp⟩), h]

theorem handleChatMessage_notmember (env : Env) (s0 : ServerState) (ws : ConnId)
    (roomId : String) (payload : Option ChatPayload) (room : List ConnId)
    (hr : roomId ≠ "") (hp : payload ≠ none)
    (h : s0.rooms roomId = some room) (hmem : ws ∉ room) :
    handleChatMessage env s0 ws roomId payload =
      (s0, [(ws, SMsg.error "You are not in this room")]) := by
  unfold handleChatMessage
  rw [if_neg (not_or.mpr ⟨hr, hp⟩), h]
  exact if_neg hmem

theorem handleChatMessage_run (env : Env) (s0 : ServerState) (ws : ConnId)
    (roomId : String) (cm : ChatPayload) (room : List ConnId)
    (hr : roomId ≠ "") (h : s0.rooms roomId = some room) (hmem : ws ∈ room) :
    handleChatMessage env s0 ws roomId (some cm) =
      broadcastToRoom env s0 roomId
        (SMsg.chat_message roomId
          { author := cm.author, text := cm.text, serverTimestamp := env.now,
            roomId := roomId }) (some ws) := by
  unfold handleChatMessage
  rw [if_neg (not_or.mpr ⟨hr, fun hcon => Option.noConfusion hcon⟩), h]
  exact if_pos hmem

theorem handleLeaveRoom_run (env : Env) (s : ServerState) (ws : ConnId)
    (msgRoomId roomId : String) (room : List ConnId)
    (hres : (if msgRoomId ≠ "" then some msgRoomId else s.wsRoomId ws) = some roomId)
    (hroom : s.rooms roomId = some room) :
    handleLeaveRoom env s ws msgRoomId =
      ((clearWsFields (broadcastToRoom env (unbind (roomDel s roomId ws) ws) roomId
          (SMsg.user_left roomId (s.wsUsername ws)
            (members (unbind (roomDel s roomId ws) ws) roomId).length) none).1 ws),
       (broadcastToRoom env (unbind (roomDel s roomId ws) ws) roomId
          (SMsg.user_left roomId (s.wsUsername ws)
            (members (unbind (roomDel s roomId ws) ws) roomId).length) none).2
         ++ [(ws, SMsg.leave_success roomId)]) := by
  have h0 : handleLeaveRoom env s ws msgRoomId =
      match s.rooms roomId with
      | none => (s, [])
      | some _ =>
        let s1 := unbind (roomDel s roomId ws) ws
        let cnt := (members s1 roomId).length
        let step := broadcastToRoom env s1 roomId
          (SMsg.user_left roomId (s.wsUsername ws) cnt) none
        (clearWsFields step.1 ws, step.2 ++ [(ws, SMsg.leave_success roomId)]) := by
    unfold handleLeaveRoom
    rw [hres]
  rw [h0, hroom]

theorem handleLeaveRoom_noroom (env : Env) (s : ServerState) (ws : ConnId)
    (msgRoomId roomId : String)
    (hres : (if msgRoomId ≠ "" then some msgRoomId else s.wsRoomId ws) = some roomId)
    (hroom : s.rooms roomId = none) :
    handleLeaveRoom env s ws msgRoomId = (s, []) := by
  have h0 : handleLeaveRoom env s ws msgRoomId =
      match s.rooms roomId with
      | none => (s, [])
      | some _ =>
        let s1 := unbind (roomDel s roomId ws) ws
        let cnt := (members s1 roomId).length
        let step := broadcastToRoom env s1 roomId
          (SMsg.user_left roomId (s.wsUsername ws) cnt) none
        (clearWsFields step.1 ws, step.2 ++ [(ws, SMsg.leave_success roomId)]) := by
    unfold handleLeaveRoom
    rw [hres]
  rw [h0, hroom]

theorem handleLeaveRoom_idle (env : Env) (s : ServerState) (ws : ConnId)
    (msgRoomId : String)
    (hres : (if msgRoomId ≠ "" then some msgRoomId else s.wsRoomId ws) = none) :
    handleLeaveRoom env s ws msgRoomId = (s, []) := by
  unfold handleLeaveRoom
  rw [hres]

theorem handleUserDisconnect_run (env : Env) (s : ServerState) (ws : ConnId)
    (roomId : String) (room : List ConnId) (u : String)
    (hws : s.wsRoomId ws = some roomId) (hroom : s.rooms roomId = some room)
    (hu : s.wsUsername ws = some u) :
    handleUserDisconnect env s ws =
      broadcastToRoom env (unbind (roomDel s roomId ws) ws) roomId
        (SMsg.user_left_disc roomId u
          (members (unbind (roomDel s roomId ws) ws) roomId).length) none := by
  have h0 : handleUserDisconnect env s ws =
      match s.rooms roomId with
      | none => (s, [])
      | some _ =>
        let s1 := unbind (roomDel s roomId ws) ws
        let cnt := (members s1 roomId).length
        match s.wsUsername ws with
        | some u2 => broadcastToRoom env s1 roomId (SMsg.user_left_disc roomId u2 cnt) none
        | none => (s1, []) := by
    unfold handleUserDisconnect
    rw [hws]
  rw [h0, hroom, hu]

theorem handleUserDisconnect_run_anon (env : Env) (s : ServerState) (ws : ConnId)
    (roomId : String) (room : List ConnId)
    (hws : s.wsRoomId ws = some roomId) (hroom : s.rooms roomId = some room)
    (hu : s.wsUsername ws = none) :
    handleUserDisconnect env s ws = (unbind (roomDel s roomId ws) ws, []) := by
  have h0 : handleUserDisconnect env s ws =
      match s.rooms roomId with
      | none => (s, [])
      | some _ =>
        let s1 := unbind (roomDel s roomId ws) ws
        let cnt := (members s1 roomId).length
        match s.wsUsername ws with
        | some u2 => broadcastToRoom env s1 roomId (SMsg.user_left_disc roomId u2 cnt) none
        | none => (s1, []) := by
    unfold handleUserDisconnect
    rw [hws]
  rw [h0, hroom, hu]

theorem handleUserDisconnect_idle (env : Env) (s : ServerState) (ws : ConnId)
    (hws : s.wsRoomId ws = none) : handleUserDisconnect env s ws = (s, []) := by
  unfold handleUserDisconnect
  rw [hws]

theorem handleUserDisconnect_noroom (env : Env) (s : ServerState) (ws : ConnId)
    (roomId : String) (hws : s.wsRoomId ws = some roomId)
    (hroom : s.rooms roomId = none) : handleUserDisconnect env s ws = (s, []) := by
  have h0 : handleUserDisconnect env s ws =
      match s.rooms roomId with
      | none => (s, [])
      | some _ =>
        let s1 := unbind (roomDel s roomId ws) ws
        let cnt := (members s1 roomId).length
        match s.wsUsername ws with
        | some u2 => broadcastToRoom env s1 roomId (SMsg.user_left_disc roomId u2 cnt) none
        | none => (s1, []) := by
    unfold handleUserDisconnect
    rw [hws]
  rw [h0, hroom]

/-! ### Field preservation helpers -/

theorem roomDel_rooms_other (s : ServerState) (roomId : String) (ws : ConnId)
    (r : String) (hr : r ≠ roomId) : (roomDel s roomId ws).rooms r = s.rooms r := by
  show (if r = roomId then (s.rooms r).map (fun l => l.filter (fun c => c != ws))
      else s.rooms r) = s.rooms r
  rw [if_neg hr]

theorem roomDel_rooms_isSome (s : ServerState) (roomId : String) (ws : ConnId)
    (r : String) : ((roomDel s roomId ws).rooms r).isSome = (s.rooms r).isSome := by
  by_cases hr : r = roomId
  · subst hr
    show ((if r = r then (s.rooms r).map (fun l => l.filter (fun c => c != ws))
        else s.rooms r)).isSome = (s.rooms r).isSome
    rw [if_pos rfl]
    cases s.rooms r <;> rfl
  · rw [roomDel_rooms_other s roomId ws r hr]

theorem roomAdd_rooms_self (s : ServerState) (roomId : String) (ws : ConnId)
    (room : List ConnId) (h : s.rooms roomId = some room) :
    (roomAdd s roomId ws).rooms roomId =
      some (if ws ∈ room then room else room ++ [ws]) := by
  show (if roomId = roomId then
      (s.rooms roomId).map (fun l => if ws ∈ l then l else l ++ [ws])
      else s.rooms roomId) = _
  rw [if_pos rfl, h]
  rfl

theorem mem_roomAdd_self (room : List ConnId) (ws : ConnId) :
    ws ∈ (if ws ∈ room then room else room ++ [ws]) := by
  by_cases h : ws ∈ room
  · rw [if_pos h]; exact h
  · rw [if_neg h]; exact List.mem_append_right room (List.mem_singleton.mpr rfl)

theorem mem_roomAdd_mono (room : List ConnId) (ws c : ConnId) (hc : c ∈ room) :
    c ∈ (if ws ∈ room then room else room ++ [ws]) := by
  by_cases h : ws ∈ room
  · rw [if_pos h]; exact hc
  · rw [if_neg h]; exact List.mem_append_left [ws] hc

theorem broadcastToRoom_roomCreators (env : Env) (s : ServerState) (roomId : String)
    (msg : SMsg) (ex : Option ConnId) :
    (broadcastToRoom env s roomId msg ex).1.roomCreators = s.roomCreators := by
  cases h : s.rooms roomId with
  | none => rw [broadcastToRoom_absent env s roomId msg ex h]
  | some room =>
    rw [broadcastToRoom_eq env s roomId msg ex room h]
    exact pruneFold_roomCreators env ex roomId room s

theorem broadcastToRoom_wsUsername (env : Env) (s : ServerState) (roomId : String)
    (msg : SMsg) (ex : Option ConnId) :
    (broadcastToRoom env s roomId msg ex).1.wsUsername = s.wsUsername := by
  cases h : s.rooms roomId with
  | none => rw [broadcastToRoom_absent env s roomId msg ex h]
  | some room =>
    rw [broadcastToRoom_eq env s roomId msg ex room h]
    exact pruneFold_wsUsername env ex roomId room s

theorem broadcastToRoom_wsRoomId (env : Env) (s : ServerState) (roomId : String)
    (msg : SMsg) (ex : Option ConnId) :
    (broadcastToRoom env s roomId msg ex).1.wsRoomId = s.wsRoomId := by
  cases h : s.rooms roomId with
  | none => rw [broadcastToRoom_absent env s roomId msg ex h]
  | some room =>
    rw [broadcastToRoom_eq env s roomId msg ex room h]
    exact pruneFold_wsRoomId env ex roomId room s

theorem broadcastToRoom_rooms_other (env : Env) (s : ServerState) (roomId : String)
    (msg : SMsg) (ex : Option ConnId) (r : String) (hr : r ≠ roomId) :
    (broadcastToRoom env s roomId msg ex).1.rooms r = s.rooms r := by
  cases h : s.rooms roomId with
  | none => rw [broadcastToRoom_absent env s roomId msg ex h]
  | some room =>
    rw [broadcastToRoom_eq env s roomId msg ex room h]
    exact pruneFold_rooms_other env ex roomId room s r hr

theorem broadcastToRoom_rooms_isSome (env : Env) (s : ServerState) (roomId : String)
    (msg : SMsg) (ex : Option ConnId) (r : String) :
    ((broadcastToRoom env s roomId msg ex).1.rooms r).isSome = (s.rooms r).isSome := by
  cases h : s.rooms roomId with
  | none => rw [broadcastToRoom_absent env s roomId msg ex h]
  | some room =>
    rw [broadcastToRoom_eq env s roomId msg ex room h]
    exact pruneFold_rooms_isSome env ex roomId room s r

/-! ### Behavior of the leave-previous-room steps -/

theorem leavePrevCreate_roomCreators (env : Env) (s1 : ServerState) (ws : ConnId)
    (username : String) :
    (leavePrevCreate env s1 ws username).1.roomCreators = s1.roomCreators := by
  cases hur : s1.userRooms ws with
  | none => rw [leavePrevCreate_unregistered env s1 ws username hur]
  | some prev =>
    by_cases hh : (s1.rooms prev).isSome = true
    · rw [leavePrevCreate_has env s1 ws username prev hur hh]
      rw [broadcastToRoom_roomCreators]
      rfl
    · rw [leavePrevCreate_gone env s1 ws username prev hur (Bool.eq_false_iff.mpr hh)]

theorem leavePrevCreate_wsUsername (env : Env) (s1 : ServerState) (ws : ConnId)
    (username : String) :
    (leavePrevCreate env s1 ws username).1.wsUsername = s1.wsUsername := by
  cases hur : s1.userRooms ws with
  | none => rw [leavePrevCreate_unregistered env s1 ws username hur]
  | some prev =>
    by_cases hh : (s1.rooms prev).isSome = true
    · rw [leavePrevCreate_has env s1 ws username prev hur hh]
      rw [broadcastToRoom_wsUsername]
      rfl
    · rw [leavePrevCreate_gone env s1 ws username prev hur (Bool.eq_false_iff.mpr hh)]

theorem leavePrevCreate_rooms_isSome (env : Env) (s1 : ServerState) (ws : ConnId)
    (username : String) (r : String) :
    ((leavePrevCreate env s1 ws username).1.rooms r).isSome = (s1.rooms r).isSome := by
  cases hur : s1.userRooms ws with
  | none => rw [leavePrevCreate_unregistered env s1 ws username hur]
  | some prev =>
    by_cases hh : (s1.rooms prev).isSome = true
    · rw [leavePrevCreate_has env s1 ws username prev hur hh]
      rw [broadcastToRoom_rooms_isSome, roomDel_rooms_isSome]
    · rw [leavePrevCreate_gone env s1 ws username prev hur (Bool.eq_false_iff.mpr hh)]

/-- Members of any room that are distinct from the leaving connection and
whose sends succeed survive the leave-previous-room step of create. -/
theorem leavePrevCreate_mem_preserved (env : Env) (s1 : ServerState) (ws : ConnId)
    (username : String) (roomId : String) (c : ConnId)
    (hc : c ∈ members s1 roomId) (hcw : c ≠ ws) (hok : env.sendOk c = true) :
    c ∈ members (leavePrevCreate env s1 ws username).1 roomId := by
  cases hur : s1.userRooms ws with
  | none => rw [leavePrevCreate_unregistered env s1 ws username hur]; exact hc
  | some prev =>
    by_cases hh : (s1.rooms prev).isSome = true
    · rw [leavePrevCreate_has env s1 ws username prev hur hh]
      cases hx : (roomDel s1 prev ws).rooms prev with
      | none =>
        rw [broadcastToRoom_absent _ _ _ _ _ hx]
        exact (mem_members_roomDel s1 prev ws roomId c).mpr ⟨hc, fun _ => hcw⟩
      | some rm =>
        rw [broadcastToRoom_eq _ _ _ _ _ rm hx]
        by_cases hrp : roomId = prev
        · subst hrp
          refine (pruneFold_mem_room env (some ws) roomId rm _ c).mpr ⟨?_, ?_⟩
          · exact (mem_members_roomDel s1 roomId ws roomId c).mpr ⟨hc, fun _ => hcw⟩
          · rintro ⟨_, hsp⟩
            simp [shouldPrune, hok] at hsp
        · show c ∈ members (pruneFold env (some ws) prev rm (roomDel s1 prev ws)) roomId
          unfold members
          rw [pruneFold_rooms_other env (some ws) prev rm _ roomId hrp]
          rw [roomDel_rooms_other s1 prev ws roomId hrp]
          exact hc
    · rw [leavePrevCreate_gone env s1 ws username prev hur (Bool.eq_false_iff.mpr hh)]
      exact hc

/-- Every delivery emitted by the leave-previous step of create goes to a
connection other than the leaver and is a `user_left` room-switch notice. -/
theorem leavePrevCreate_out (env : Env) (s1 : ServerState) (ws : ConnId)
    (username : String) (p : ConnId × SMsg)
    (hp : p ∈ (leavePrevCreate env s1 ws username).2) :
    p.1 ≠ ws ∧ ∃ a b, p.2 = SMsg.user_left_switch a b := by
  cases hur : s1.userRooms ws with
  | none =>
    rw [leavePrevCreate_unregistered env s1 ws username hur] at hp
    exact absurd hp (List.not_mem_nil p)
  | some prev =>
    by_cases hh : (s1.rooms prev).isSome = true
    · rw [leavePrevCreate_has env s1 ws username prev hur hh] at hp
      obtain ⟨h1, h2⟩ := broadcast_output_exclude _ _ _ _ _ _ hp
      exact ⟨h1, prev, username, h2⟩
    · rw [leavePrevCreate_gone env s1 ws username prev hur (Bool.eq_false_iff.mpr hh)] at hp
      exact absurd hp (List.not_mem_nil p)

/-- The leave-previous-room step of join never touches the join target's
member list. -/
theorem leavePrevJoin_rooms_target (env : Env) (s0 : ServerState) (ws : ConnId)
    (roomId username : String) :
    (leavePrevJoin env s0 ws roomId username).1.rooms roomId = s0.rooms roomId := by
  cases hur : s0.userRooms ws with
  | none => rw [leavePrevJoin_unregistered env s0 ws roomId username hur]
  | some prev =>
    by_cases hc : (s0.rooms prev).isSome = true ∧ prev ≠ roomId
    · rw [leavePrevJoin_has env s0 ws roomId username prev hur hc.1 hc.2]
      have hne2 : roomId ≠ prev := fun hcon => hc.2 hcon.symm
      rw [broadcastToRoom_rooms_other _ _ _ _ _ _ hne2]
      exact roomDel_rooms_other s0 prev ws roomId hne2
    · rw [leavePrevJoin_skip env s0 ws roomId username prev hur hc]

theorem leavePrevJoin_wsUsername (env : Env) (s0 : ServerState) (ws : ConnId)
    (roomId username : String) :
    (leavePrevJoin env s0 ws roomId username).1.wsUsername = s0.wsUsername := by
  cases hur : s0.userRooms ws with
  | none => rw [leavePrevJoin_unregistered env s0 ws roomId username hur]
  | some prev =>
    by_cases hc : (s0.rooms prev).isSome = true ∧ prev ≠ roomId
    · rw [leavePrevJoin_has env s0 ws roomId username prev hur hc.1 hc.2]
      rw [broadcastToRoom_wsUsername]
      rfl
    · rw [leavePrevJoin_skip env s0 ws roomId username prev hur hc]

/-- Every delivery emitted by the leave-previous step of join goes to a
connection other than the joiner and is a `user_left` room-switch notice. -/
theorem leavePrevJoin_out (env : Env) (s0 : ServerState) (ws : ConnId)
    (roomId username : String) (p : ConnId × SMsg)
    (hp : p ∈ (leavePrevJoin env s0 ws roomId username).2) :
    p.1 ≠ ws ∧ ∃ a b, p.2 = SMsg.user_left_switch a b := by
  cases hur : s0.userRooms ws with
  | none =>
    rw [leavePrevJoin_unregistered env s0 ws roomId username hur] at hp
    exact absurd hp (List.not_mem_nil p)
  | some prev =>
    by_cases hc : (s0.rooms prev).isSome = true ∧ prev ≠ roomId
    · rw [leavePrevJoin_has env s0 ws roomId username prev hur hc.1 hc.2] at hp
      obtain ⟨h1, h2⟩ := broadcast_output_exclude _ _ _ _ _ _ hp
      exact ⟨h1, prev, username, h2⟩
    · rw [leavePrevJoin_skip env s0 ws roomId username prev hur hc] at hp
      exact absurd hp (List.not_mem_nil p)

/-! ### Preservation of the binding/membership agreement -/

theorem roomAdd_rooms_other (s : ServerState) (roomId : String) (ws : ConnId)
    (r : String) (hr : r ≠ roomId) : (roomAdd s roomId ws).rooms r = s.rooms r := by
  show (if r = roomId then (s.rooms r).map (fun l => if ws ∈ l then l else l ++ [ws])
      else s.rooms r) = s.rooms r
  rw [if_neg hr]

theorem mem_members_roomAdd (s : ServerState) (roomId : String) (ws : ConnId)
    (r : String) (x : ConnId) (hx : x ∈ members s r) :
    x ∈ members (roomAdd s roomId ws) r := by
  by_cases hr : r = roomId
  · subst hr
    cases h : s.rooms r with
    | none =>
      unfold members at hx
      rw [h] at hx
      exact absurd hx (List.not_mem_nil x)
    | some l =>
      unfold members at hx ⊢
      rw [h] at hx
      rw [roomAdd_rooms_self s r ws l h]
      exact mem_roomAdd_mono l ws x hx
  · unfold members
    rw [roomAdd_rooms_other s roomId ws r hr]
    exact hx

theorem broadcastToRoom_userRooms_none (env : Env) (s : ServerState) (roomId : String)
    (msg : SMsg) (ex : Option ConnId) (x : ConnId) (h : s.userRooms x = none) :
    (broadcastToRoom env s roomId msg ex).1.userRooms x = none := by
  cases hx : s.rooms roomId with
  | none => rw [broadcastToRoom_absent env s roomId msg ex hx]; exact h
  | some room =>
    rw [broadcastToRoom_eq env s roomId msg ex room hx]
    rw [pruneFold_userRooms]
    by_cases hc : x ∈ room ∧ shouldPrune env ex x = true
    · rw [if_pos hc]
    · rw [if_neg hc]; exact h

theorem broadcastToRoom_mem_mono (env : Env) (s : ServerState) (roomId : String)
    (msg : SMsg) (ex : Option ConnId) (r : String) (x : ConnId)
    (hx : x ∈ members (broadcastToRoom env s roomId msg ex).1 r) :
    x ∈ members s r := by
  cases h : s.rooms roomId with
  | none => rw [broadcastToRoom_absent env s roomId msg ex h] at hx; exact hx
  | some room =>
    rw [broadcastToRoom_eq env s roomId msg ex room h] at hx
    by_cases hr : r = roomId
    · subst hr
      exact ((pruneFold_mem_room env ex r room s x).mp hx).1
    · unfold members at hx
      rw [pruneFold_rooms_other env ex roomId room s r hr] at hx
      exact hx

theorem createBase_rooms_target_isSome (s0 : ServerState) (roomId username : String) :
    ((createBase s0 roomId username).rooms roomId).isSome = true := by
  unfold createBase
  by_cases h : (s0.rooms roomId).isSome = true
  · rw [if_pos h]; exact h
  · rw [if_neg h]
    show ((if roomId = roomId then some [] else s0.rooms roomId)).isSome = true
    rw [if_pos rfl]
    rfl

theorem bindingInv_init : BindingInv initState := by
  intro x R hx
  exact Option.noConfusion hx

theorem bindingInv_pruneFold (env : Env) (ex : Option ConnId) (roomId : String)
    (l : List ConnId) (st : ServerState) (h : BindingInv st) :
    BindingInv (pruneFold env ex roomId l st) := by
  intro x R hx
  rw [pruneFold_userRooms] at hx
  by_cases hc : x ∈ l ∧ shouldPrune env ex x = true
  · rw [if_pos hc] at hx; exact Option.noConfusion hx
  · rw [if_neg hc] at hx
    obtain ⟨h1, h2⟩ := h x R hx
    constructor
    · rw [pruneFold_wsRoomId]; exact h1
    · by_cases hR : R = roomId
      · subst hR
        exact (pruneFold_mem_room env ex R l st x).mpr ⟨h2, hc⟩
      · unfold members
        rw [pruneFold_rooms_other env ex roomId l st R hR]
        exact h2

theorem bindingInvExcept_pruneFold (env : Env) (ex : Option ConnId) (roomId : String)
    (l : List ConnId) (st : ServerState) (ws : ConnId)
    (h : BindingInvExcept st ws) :
    BindingInvExcept (pruneFold env ex roomId l st) ws := by
  intro x R hxw hx
  rw [pruneFold_userRooms] at hx
  by_cases hc : x ∈ l ∧ shouldPrune env ex x = true
  · rw [if_pos hc] at hx; exact Option.noConfusion hx
  · rw [if_neg hc] at hx
    obtain ⟨h1, h2⟩ := h x R hxw hx
    constructor
    · rw [pruneFold_wsRoomId]; exact h1
    · by_cases hR : R = roomId
      · subst hR
        exact (pruneFold_mem_room env ex R l st x).mpr ⟨h2, hc⟩
      · unfold members
        rw [pruneFold_rooms_other env ex roomId l st R hR]
        exact h2

theorem bindingInv_broadcast (env : Env) (s : ServerState) (roomId : String)
    (msg : SMsg) (ex : Option ConnId) (h : BindingInv s) :
    BindingInv (broadcastToRoom env s roomId msg ex).1 := by
  cases hx : s.rooms roomId with
  | none => rw [broadcastToRoom_absent env s roomId msg ex hx]; exact h
  | some room =>
    rw [broadcastToRoom_eq env s roomId msg ex room hx]
    exact bindingInv_pruneFold env ex roomId room s h

theorem bindingInvExcept_broadcast (env : Env) (s : ServerState) (roomId : String)
    (msg : SMsg) (ex : Option ConnId) (ws : ConnId) (h : BindingInvExcept s ws) :
    BindingInvExcept (broadcastToRoom env s roomId msg ex).1 ws := by
  cases hx : s.rooms roomId with
  | none => rw [broadcastToRoom_absent env s roomId msg ex hx]; exact h
  | some room =>
    rw [broadcastToRoom_eq env s roomId msg ex room hx]
    exact bindingInvExcept_pruneFold env ex roomId room s ws h

theorem bindingInv_removeConn (s : ServerState) (roomId : String) (ws : ConnId)
    (h : BindingInv s) : BindingInv (unbind (roomDel s roomId ws) ws) := by
  intro x R hx
  have hxw : x ≠ ws := by
    intro hcon
    subst hcon
    rw [show (unbind (roomDel s roomId x) x).userRooms x = none from by
      show (if x = x then none else (roomDel s roomId x).userRooms x) = none
      rw [if_pos rfl]] at hx
    exact Option.noConfusion hx
  have hx2 : s.userRooms x = some R := by
    rw [show (unbind (roomDel s roomId ws) ws).userRooms x = s.userRooms x from by
      show (if x = ws then none else (roomDel s roomId ws).userRooms x) = s.userRooms x
      rw [if_neg hxw]
      rfl] at hx
    exact hx
  obtain ⟨h1, h2⟩ := h x R hx2
  exact ⟨h1, (mem_members_roomDel s roomId ws R x).mpr ⟨h2, fun _ => hxw⟩⟩

theorem bindingInv_clearWsFields (s : ServerState) (ws : ConnId)
    (hws : s.userRooms ws = none) (h : BindingInv s) :
    BindingInv (clearWsFields s ws) := by
  intro x R hx
  have hx2 : s.userRooms x = some R := hx
  have hxw : x ≠ ws := by
    intro hcon
    subst hcon
    rw [hws] at hx2
    exact Option.noConfusion hx2
  obtain ⟨h1, h2⟩ := h x R hx2
  constructor
  · show (if x = ws then none else s.wsRoomId x) = some R
    rw [if_neg hxw]
    exact h1
  · exact h2

theorem bindingInv_createBase (s0 : ServerState) (roomId username : String)
    (h : BindingInv s0) : BindingInv (createBase s0 roomId username) := by
  unfold createBase
  by_cases hs : (s0.rooms roomId).isSome = true
  · rw [if_pos hs]; exact h
  · rw [if_neg hs]
    intro x R hx
    obtain ⟨h1, h2⟩ := h x R hx
    refine ⟨h1, ?_⟩
    have hR : R ≠ roomId := by
      intro hcon
      subst hcon
      unfold members at h2
      cases hrr : s0.rooms R with
      | none => rw [hrr] at h2; exact absurd h2 (List.not_mem_nil x)
      | some l => rw [hrr] at hs; exact hs rfl
    unfold members
    rw [show (createRoomEntry s0 roomId username).rooms R = s0.rooms R from by
      show (if R = roomId then some [] else s0.rooms R) = s0.rooms R
      rw [if_neg hR]]
    exact h2

theorem leavePrevCreate_except (env : Env) (s1 : ServerState) (ws : ConnId)
    (username : String) (h : BindingInvExcept s1 ws) :
    BindingInvExcept (leavePrevCreate env s1 ws username).1 ws := by
  cases hur : s1.userRooms ws with
  | none => rw [leavePrevCreate_unregistered env s1 ws username hur]; exact h
  | some prev =>
    by_cases hh : (s1.rooms prev).isSome = true
    · rw [leavePrevCreate_has env s1 ws username prev hur hh]
      apply bindingInvExcept_broadcast
      intro x R hxw hx
      obtain ⟨h1, h2⟩ := h x R hxw hx
      exact ⟨h1, (mem_members_roomDel s1 prev ws R x).mpr ⟨h2, fun _ => hxw⟩⟩
    · rw [leavePrevCreate_gone env s1 ws username prev hur (Bool.eq_false_iff.mpr hh)]
      exact h

theorem leavePrevJoin_except (env : Env) (s0 : ServerState) (ws : ConnId)
    (roomId username : String) (h : BindingInvExcept s0 ws) :
    BindingInvExcept (leavePrevJoin env s0 ws roomId username).1 ws := by
  cases hur : s0.userRooms ws with
  | none => rw [leavePrevJoin_unregistered env s0 ws roomId username hur]; exact h
  | some prev =>
    by_cases hc : (s0.rooms prev).isSome = true ∧ prev ≠ roomId
    · rw [leavePrevJoin_has env s0 ws roomId username prev hur hc.1 hc.2]
      apply bindingInvExcept_broadcast
      intro x R hxw hx
      obtain ⟨h1, h2⟩ := h x R hxw hx
      exact ⟨h1, (mem_members_roomDel s0 prev ws R x).mpr ⟨h2, fun _ => hxw⟩⟩
    · rw [leavePrevJoin_skip env s0 ws roomId username prev hur hc]
      exact h

theorem bindingInv_addBind (sL : ServerState) (ws : ConnId) (roomId username : String)
    (hEx : BindingInvExcept sL ws) (hS : (sL.rooms roomId).isSome = true) :
    BindingInv (bindConn (roomAdd sL roomId ws) ws roomId username) := by
  intro x R hx
  by_cases hxw : x = ws
  · subst hxw
    have hxR : roomId = R := by
      rw [show (bindConn (roomAdd sL roomId x) x roomId username).userRooms x
          = some roomId from by
        show (if x = x then some roomId else (roomAdd sL roomId x).userRooms x)
          = some roomId
        rw [if_pos rfl]] at hx
      exact Option.some.inj hx
    subst hxR
    constructor
    · show (if x = x then some roomId else (roomAdd sL roomId x).wsRoomId x) = some roomId
      rw [if_pos rfl]
    · obtain ⟨l, hl⟩ := Option.isSome_iff_exists.mp hS
      show x ∈ members (roomAdd sL roomId x) roomId
      unfold members
      rw [roomAdd_rooms_self sL roomId x l hl]
      exact mem_roomAdd_self l x
  · have hx2 : sL.userRooms x = some R := by
      rw [show (bindConn (roomAdd sL roomId ws) ws roomId username).userRooms x
          = sL.userRooms x from by
        show (if x = ws then some roomId else (roomAdd sL roomId ws).userRooms x)
          = sL.userRooms x
        rw [if_neg hxw]
        rfl] at hx
      exact hx
    obtain ⟨h1, h2⟩ := hEx x R hxw hx2
    constructor
    · show (if x = ws then some roomId else (roomAdd sL roomId ws).wsRoomId x) = some R
      rw [if_neg hxw]
      exact h1
    · show x ∈ members (roomAdd sL roomId ws) R
      exact mem_members_roomAdd sL roomId ws R x h2

theorem bindingInv_create (env : Env) (s0 : ServerState) (ws : ConnId)
    (roomId username : String) (h : BindingInv s0) :
    BindingInv (handleCreateRoom env s0 ws roomId username).1 := by
  by_cases hg : roomId = "" ∨ username = ""
  · rw [handleCreateRoom_missing env s0 ws roomId username hg]; exact h
  · have hr : roomId ≠ "" := fun hc => hg (Or.inl hc)
    have hu : username ≠ "" := fun hc => hg (Or.inr hc)
    rw [handleCreateRoom_run env s0 ws roomId username hr hu]
    show BindingInv (broadcastToRoom env (createStateAfter env s0 ws roomId username)
      roomId (SMsg.user_joined_create roomId username) (some ws)).1
    apply bindingInv_broadcast
    apply bindingInv_addBind
    · apply leavePrevCreate_except
      intro x R hxw hx
      exact bindingInv_createBase s0 roomId username h x R hx
    · rw [leavePrevCreate_rooms_isSome]
      exact createBase_rooms_target_isSome s0 roomId username

theorem bindingInv_join (env : Env) (s0 : ServerState) (ws : ConnId)
    (roomId username : String) (h : BindingInv s0) :
    BindingInv (handleJoinRoom env s0 ws roomId username).1 := by
  by_cases hg : roomId = "" ∨ username = ""
  · rw [handleJoinRoom_missing env s0 ws roomId username hg]; exact h
  · have hr : roomId ≠ "" := fun hc => hg (Or.inl hc)
    have hu : username ≠ "" := fun hc => hg (Or.inr hc)
    cases hroom : s0.rooms roomId with
    | none => rw [handleJoinRoom_notfound env s0 ws roomId username hr hu hroom]; exact h
    | some room =>
      by_cases hcol : room.any
          (fun c => (c != ws) && (s0.wsUsername c == some username)) = true
      · rw [handleJoinRoom_taken env s0 ws roomId username room hr hu hroom hcol]
        exact h
      · rw [handleJoinRoom_run env s0 ws roomId username room hr hu hroom
          (Bool.eq_false_iff.mpr hcol)]
        show BindingInv (broadcastToRoom env (joinStateAfter env s0 ws roomId username)
          roomId (SMsg.user_joined roomId username
            (joinCount env s0 ws roomId username)) (some ws)).1
        apply bindingInv_broadcast
        apply bindingInv_addBind
        · apply leavePrevJoin_except
          intro x R hxw hx
          exact h x R hx
        · rw [leavePrevJoin_rooms_target, hroom]
          rfl

theorem bindingInv_chat (env : Env) (s0 : ServerState) (ws : ConnId)
    (roomId : String) (payload : Option ChatPayload) (h : BindingInv s0) :
    BindingInv (handleChatMessage env s0 ws roomId payload).1 := by
  cases payload with
  | none => rw [handleChatMessage_missing env s0 ws roomId none (Or.inr rfl)]; exact h
  | some cm =>
    by_cases hr : roomId = ""
    · rw [handleChatMessage_missing env s0 ws roomId (some cm) (Or.inl hr)]; exact h
    · cases hx : s0.rooms roomId with
      | none =>
        rw [handleChatMessage_noroom env s0 ws roomId (some cm) hr
          (fun hc => Option.noConfusion hc) hx]
        exact h
      | some room =>
        by_cases hmem : ws ∈ room
        · rw [handleChatMessage_run env s0 ws roomId cm room hr hx hmem]
          exact bindingInv_broadcast env s0 roomId _ (some ws) h
        · rw [handleChatMessage_notmember env s0 ws roomId (some cm) room hr
            (fun hc => Option.noConfusion hc) hx hmem]
          exact h

theorem bindingInv_leave (env : Env) (s : ServerState) (ws : ConnId)
    (msgRoomId : String) (h : BindingInv s) :
    BindingInv (handleLeaveRoom env s ws msgRoomId).1 := by
  cases hres : (if msgRoomId ≠ "" then some msgRoomId else s.wsRoomId ws) with
  | none => rw [handleLeaveRoom_idle env s ws msgRoomId hres]; exact h
  | some roomId =>
    cases hroom : s.rooms roomId with
    | none => rw [handleLeaveRoom_noroom env s ws msgRoomId roomId hres hroom]; exact h
    | some room =>
      rw [handleLeaveRoom_run env s ws msgRoomId roomId room hres hroom]
      show BindingInv (clearWsFields (broadcastToRoom env
        (unbind (roomDel s roomId ws) ws) roomId
        (SMsg.user_left roomId (s.wsUsername ws)
          (members (unbind (roomDel s roomId ws) ws) roomId).length) none).1 ws)
      apply bindingInv_clearWsFields
      · apply broadcastToRoom_userRooms_none
        show (if ws = ws then none else (roomDel s roomId ws).userRooms ws) = none
        rw [if_pos rfl]
      · exact bindingInv_broadcast env _ roomId _ none (bindingInv_removeConn s roomId ws h)

theorem bindingInv_disconnect (env : Env) (s : ServerState) (ws : ConnId)
    (h : BindingInv s) : BindingInv (handleUserDisconnect env s ws).1 := by
  cases hws : s.wsRoomId ws with
  | none =>
    rw [handleUserDisconnect_idle env s ws hws]
    exact h
  | some roomId =>
    cases hroom : s.rooms roomId with
    | none =>
      rw [handleUserDisconnect_noroom env s ws roomId hws hroom]
      exact h
    | some room =>
      cases hu : s.wsUsername ws with
      | none =>
        rw [handleUserDisconnect_run_anon env s ws roomId room hws hroom hu]
        exact bindingInv_removeConn s roomId ws h
      | some u =>
        rw [handleUserDisconnect_run env s ws roomId room u hws hroom hu]
        exact bindingInv_broadcast env _ roomId _ none (bindingInv_removeConn s roomId ws h)

theorem bindingInv_sweep (s : ServerState) (h : BindingInv s) :
    BindingInv (reaperSweep s) := by
  intro x R hx
  obtain ⟨h1, h2⟩ := h x R hx
  refine ⟨h1, ?_⟩
  unfold members at h2 ⊢
  cases hrx : s.rooms R with
  | none =>
    rw [hrx] at h2
    exact absurd h2 (List.not_mem_nil x)
  | some l =>
    cases l with
    | nil =>
      rw [hrx] at h2
      exact absurd h2 (List.not_mem_nil x)
    | cons a t =>
      rw [hrx] at h2
      rw [show (reaperSweep s).rooms R = some (a :: t) from by
        show (match s.rooms R with
          | some [] => none
          | y => y) = some (a :: t)
        rw [hrx]]
      exact h2

/-- Every reachable state satisfies the binding/membership agreement in the
bound-implies-member direction. -/
theorem bindingInv_reachable (s : ServerState) (h : Reachable s) : BindingInv s := by
  induction h with
  | init => exact bindingInv_init
  | create env ws roomId username _ ih => exact bindingInv_create env _ ws roomId username ih
  | join env ws roomId username _ ih => exact bindingInv_join env _ ws roomId username ih
  | chat env ws roomId payload _ ih => exact bindingInv_chat env _ ws roomId payload ih
  | leave env ws msgRoomId _ ih => exact bindingInv_leave env _ ws msgRoomId ih
  | disconnect env ws _ ih => exact bindingInv_disconnect env _ ws ih
  | bcast env roomId msg exclude _ ih => exact bindingInv_broadcast env _ roomId msg exclude ih
  | sweep _ ih => exact bindingInv_sweep _ ih

/-! ### C9 — reaper correctness -/

/-- C9: at each sweep, a room together with its creator record is deleted if
its member set is empty at sweep time, and a room with at least one member is
kept untouched (so is never deleted by the reaper), its creator record
included. -/
theorem reaper_deletes_iff_empty (s : ServerState) (roomId : String)
    (l : List ConnId) (h : s.rooms roomId = some l) :
    (l = [] → (reaperSweep s).rooms roomId = none
      ∧ (reaperSweep s).roomCreators roomId = none)
    ∧ (l ≠ [] → (reaperSweep s).rooms roomId = some l
      ∧ (reaperSweep s).roomCreators roomId = s.roomCreators roomId) := by
  constructor
  · rintro rfl
    unfold reaperSweep
    simp [h]
  · intro hne
    unfold reaperSweep
    cases l with
    | nil => exact absurd rfl hne
    | cons a t => simp [h]

/-- Witness for C9: the reaper deletes the emptied room R1 of `stEmpty` (with
its creator record) and keeps the one-member room R1 of `stA`. -/
theorem reaper_deletes_iff_empty_w :
    ((reaperSweep stEmpty).rooms "R1" = none
      ∧ (reaperSweep stEmpty).roomCreators "R1" = none)
    ∧ ((reaperSweep stA).rooms "R1" = some [0]
      ∧ (reaperSweep stA).roomCreators "R1" = stA.roomCreators "R1") :=
  ⟨(reaper_deletes_iff_empty stEmpty "R1" [] (by decide)).1 rfl,
   (reaper_deletes_iff_empty stA "R1" [0] (by decide)).2 (by decide)⟩

/-! ### C6 — broadcast pruning -/

/-- C6 counterexample: the claim says a member whose channel is not open is
removed from the member set and unbound, but `broadcastToRoom` only prunes on
a throwing send: here connection 1 of room R1 is not open, yet after the
broadcast it is still a member and still bound. -/
theorem broadcast_not_open_retained_cex :
    envClosed.isOpen 1 = false
    ∧ 1 ∈ members stAJ "R1"
    ∧ 1 ∈ members (broadcastToRoom envClosed stAJ "R1" SMsg.pong (some 0)).1 "R1"
    ∧ (broadcastToRoom envClosed stAJ "R1" SMsg.pong (some 0)).1.userRooms 1 = some "R1" := by
  decide

/-- C6 as amended: during a broadcast, every member other than the excluded
sender whose channel is open but whose send throws is removed from the room's
member set, unbound, and receives no subsequent broadcast for that room; a
failure for one member does not prevent delivery to any other deliverable
member; and a member whose channel is not open is skipped but retained, still
bound. -/
theorem broadcast_prune_amended (env : Env) (s : ServerState) (roomId : String)
    (msg : SMsg) (exclude : Option ConnId) (room : List ConnId)
    (h : s.rooms roomId = some room) :
    (∀ c ∈ room, some c ≠ exclude → env.isOpen c = true → env.sendOk c = false →
      c ∉ members (broadcastToRoom env s roomId msg exclude).1 roomId
      ∧ (broadcastToRoom env s roomId msg exclude).1.userRooms c = none
      ∧ ∀ m msg2 ex2,
          (c, m) ∉ (broadcastToRoom env (broadcastToRoom env s roomId msg exclude).1 roomId msg2 ex2).2)
    ∧ (∀ c ∈ room, some c ≠ exclude → env.isOpen c = true → env.sendOk c = true →
      (c, msg) ∈ (broadcastToRoom env s roomId msg exclude).2)
    ∧ (∀ c ∈ room, env.isOpen c = false →
      c ∈ members (broadcastToRoom env s roomId msg exclude).1 roomId
      ∧ (broadcastToRoom env s roomId msg exclude).1.userRooms c = s.userRooms c) := by
  refine ⟨?_, ?_, ?_⟩
  · intro c hc hex ho hs
    have hsp : shouldPrune env exclude c = true := by
      simp [shouldPrune, ho, hs, hex]
    have hres := broadcastToRoom_eq env s roomId msg exclude room h
    have hnotmem : c ∉ members (broadcastToRoom env s roomId msg exclude).1 roomId := by
      rw [hres]
      intro hcon
      exact ((pruneFold_mem_room env exclude roomId room s c).mp hcon).2 ⟨hc, hsp⟩
    refine ⟨hnotmem, ?_, ?_⟩
    · rw [hres]
      rw [pruneFold_userRooms]
      exact if_pos ⟨hc, hsp⟩
    · intro m msg2 ex2 hcon
      obtain ⟨hmem, _, _⟩ :=
        mem_broadcast_output env (broadcastToRoom env s roomId msg exclude).1 roomId msg2 ex2 (c, m) hcon
      exact hnotmem hmem
  · intro c hc hex ho hs
    refine broadcast_delivers env s roomId msg exclude room h c hc ?_
    simp [willDeliver, ho, hs, hex]
  · intro c hc ho
    have hsp : shouldPrune env exclude c = false := by
      simp [shouldPrune, ho]
    have hres := broadcastToRoom_eq env s roomId msg exclude room h
    have hmem : c ∈ members s roomId := by
      unfold members
      rw [h]
      exact hc
    constructor
    · rw [hres]
      refine (pruneFold_mem_room env exclude roomId room s c).mpr ⟨hmem, ?_⟩
      rintro ⟨_, hcon⟩
      rw [hsp] at hcon
      exact Bool.false_ne_true hcon
    · rw [hres, pruneFold_userRooms]
      rw [if_neg]
      rintro ⟨_, hcon⟩
      rw [hsp] at hcon
      exact Bool.false_ne_true hcon

/-- Witness for C6 (amended): in room R1 of `stAJ` with members 0 and 1 and
sends to connection 1 throwing, a broadcast excluding sender 0 prunes and
unbinds 1, delivers nothing to it afterwards, and delivery to 0 would still
happen on a broadcast excluding 1. -/
theorem broadcast_prune_amended_w :
    1 ∉ members (broadcastToRoom envThrow stAJ "R1" SMsg.pong (some 0)).1 "R1"
    ∧ (broadcastToRoom envThrow stAJ "R1" SMsg.pong (some 0)).1.userRooms 1 = none
    ∧ (0, SMsg.pong) ∈ (broadcastToRoom envThrow stAJ "R1" SMsg.pong (some 1)).2 := by
  have h1 := (broadcast_prune_amended envThrow stAJ "R1" SMsg.pong (some 0) [0, 1]
    (by decide)).1 1 (by decide) (by decide) (by decide) (by decide)
  have h2 := (broadcast_prune_amended envThrow stAJ "R1" SMsg.pong (some 1) [0, 1]
    (by decide)).2.1 0 (by decide) (by decide) (by decide) (by decide)
  exact ⟨h1.1, h1.2.1, h2⟩

/-! ### C10 — leave_room with a foreign explicit roomId -/

/-- C10: a connection bound to (and a member of) room R that sends
`leave_room` naming a different existing room Rp of which it is not a member
still runs the full leave path: its registry binding, `ws.roomId` and stored
display name are all cleared, `user_left` naming its display name is broadcast
to Rp's (deliverable) members, and it receives `leave_success` — while it
remains in R's member set. -/
theorem leave_foreign_room (env : Env) (s : ServerState) (ws : ConnId)
    (R Rp u : String) (roomP : List ConnId)
    (hbound : s.userRooms ws = some R) (hmem : ws ∈ members s R)
    (hRp : s.rooms Rp = some roomP) (hnot : ws ∉ roomP)
    (hne : Rp ≠ "") (hname : s.wsUsername ws = some u) :
    (handleLeaveRoom env s ws Rp).1.userRooms ws = none
    ∧ (handleLeaveRoom env s ws Rp).1.wsRoomId ws = none
    ∧ (handleLeaveRoom env s ws Rp).1.wsUsername ws = none
    ∧ ws ∈ members (handleLeaveRoom env s ws Rp).1 R
    ∧ (∀ c ∈ roomP, env.isOpen c = true → env.sendOk c = true →
        (c, SMsg.user_left Rp (some u) roomP.length) ∈ (handleLeaveRoom env s ws Rp).2)
    ∧ (ws, SMsg.leave_success Rp) ∈ (handleLeaveRoom env s ws Rp).2 := by
  have hRRp : R ≠ Rp := by
    intro hcon
    subst hcon
    apply hnot
    unfold members at hmem
    rw [hRp] at hmem
    exact hmem
  have hfilter : roomP.filter (fun c => c != ws) = roomP := by
    apply List.filter_eq_self.mpr
    intro a ha
    simp only [bne_iff_ne, ne_eq]
    intro hcon
    subst hcon
    exact hnot ha
  have hs1rooms : (unbind (roomDel s Rp ws) ws).rooms Rp = some roomP := by
    show (if Rp = Rp then (s.rooms Rp).map (fun l => l.filter (fun c => c != ws))
        else s.rooms Rp) = some roomP
    rw [if_pos rfl, hRp]
    show some (roomP.filter (fun c => c != ws)) = some roomP
    rw [hfilter]
  have hcnt : members (unbind (roomDel s Rp ws) ws) Rp = roomP := by
    unfold members
    rw [hs1rooms]
    rfl
  have hres : (if Rp ≠ "" then some Rp else s.wsRoomId ws) = some Rp := if_pos hne
  have hrun := handleLeaveRoom_run env s ws Rp Rp roomP hres hRp
  rw [hname, hcnt] at hrun
  have hbc := broadcastToRoom_eq env (unbind (roomDel s Rp ws) ws) Rp
    (SMsg.user_left Rp (some u) roomP.length) none roomP hs1rooms
  rw [hbc] at hrun
  rw [hrun]
  refine ⟨?_, ?_, ?_, ?_, ?_, ?_⟩
  · show (pruneFold env none Rp roomP (unbind (roomDel s Rp ws) ws)).userRooms ws = none
    rw [pruneFold_userRooms]
    by_cases hin : ws ∈ roomP ∧ shouldPrune env none ws = true
    · exact if_pos hin
    · rw [if_neg hin]
      show (if ws = ws then none else (roomDel s Rp ws).userRooms ws) = none
      rw [if_pos rfl]
  · show (if ws = ws then none
        else (pruneFold env none Rp roomP (unbind (roomDel s Rp ws) ws)).wsRoomId ws) = none
    rw [if_pos rfl]
  · show (if ws = ws then none
        else (pruneFold env none Rp roomP (unbind (roomDel s Rp ws) ws)).wsUsername ws) = none
    rw [if_pos rfl]
  · have hrr : (clearWsFields (pruneFold env none Rp roomP (unbind (roomDel s Rp ws) ws)) ws).rooms R
        = s.rooms R := by
      show (pruneFold env none Rp roomP (unbind (roomDel s Rp ws) ws)).rooms R = s.rooms R
      rw [pruneFold_rooms_other env none Rp roomP _ R hRRp]
      show (if R = Rp then (s.rooms R).map (fun l => l.filter (fun c => c != ws))
          else s.rooms R) = s.rooms R
      rw [if_neg hRRp]
    show ws ∈ members (clearWsFields (pruneFold env none Rp roomP (unbind (roomDel s Rp ws) ws)) ws) R
    unfold members
    rw [hrr]
    exact hmem
  · intro c hc ho hsend
    apply List.mem_append_left
    simp only [List.mem_map, List.mem_filter]
    refine ⟨c, ⟨hc, ?_⟩, rfl⟩
    simp [willDeliver, ho, hsend]
  · apply List.mem_append_right
    exact List.mem_singleton.mpr rfl

/-- Witness for C10: in `stAB` (0 in R1 as alice, 1 in R2 as bob), connection
0 sends `leave_room` naming R2: its binding and fields are cleared, R2's
member 1 is told alice left, 0 gets `leave_success` — and 0 is still a member
of R1. -/
theorem leave_foreign_room_w :
    (handleLeaveRoom env0 stAB 0 "R2").1.userRooms 0 = none
    ∧ (handleLeaveRoom env0 stAB 0 "R2").1.wsRoomId 0 = none
    ∧ (handleLeaveRoom env0 stAB 0 "R2").1.wsUsername 0 = none
    ∧ 0 ∈ members (handleLeaveRoom env0 stAB 0 "R2").1 "R1"
    ∧ (1, SMsg.user_left "R2" (some "alice") 1) ∈ (handleLeaveRoom env0 stAB 0 "R2").2
    ∧ (0, SMsg.leave_success "R2") ∈ (handleLeaveRoom env0 stAB 0 "R2").2 := by
  have h := leave_foreign_room env0 stAB 0 "R1" "R2" "alice" [1]
    (by decide) (by decide) (by decide) (by decide) (by decide) (by decide)
  exact ⟨h.1, h.2.1, h.2.2.1, h.2.2.2.1,
    h.2.2.2.2.1 1 (by decide) (by decide) (by decide), h.2.2.2.2.2⟩

/-! ### C3 — join_room rejection behavior -/

/-- C3: for a join_room with non-empty roomId and username: if the room is
absent the reply is join_error Room-not-found and the state is unchanged; if
the username equals the name of a different connection currently in the room
the reply is join_error name-taken and the state is unchanged; and a
connection that is already in the room under that same name (no other member
holding it) is not rejected — every reply it receives is a join_success. -/
theorem join_rejections (env : Env) (s : ServerState) (ws : ConnId)
    (roomId username : String) (hr : roomId ≠ "") (hu : username ≠ "") :
    (s.rooms roomId = none →
      handleJoinRoom env s ws roomId username =
        (s, [(ws, SMsg.join_error roomId "Room not found")]))
    ∧ (∀ room, s.rooms roomId = some room →
        (∃ c ∈ room, c ≠ ws ∧ s.wsUsername c = some username) →
        handleJoinRoom env s ws roomId username =
          (s, [(ws, SMsg.join_error roomId "Username already taken in this room")]))
    ∧ (∀ room, s.rooms roomId = some room → ws ∈ room →
        s.wsUsername ws = some username →
        (∀ c ∈ room, c ≠ ws → s.wsUsername c ≠ some username) →
        ∀ p ∈ (handleJoinRoom env s ws roomId username).2, p.1 = ws →
          ∃ n, p.2 = SMsg.join_success roomId username n) := by
  refine ⟨?_, ?_, ?_⟩
  · intro h
    exact handleJoinRoom_notfound env s ws roomId username hr hu h
  · intro room hroom hex
    obtain ⟨c, hc, hcw, hcu⟩ := hex
    refine handleJoinRoom_taken env s ws roomId username room hr hu hroom ?_
    rw [List.any_eq_true]
    refine ⟨c, hc, ?_⟩
    rw [Bool.and_eq_true]
    constructor
    · exact bne_iff_ne.mpr hcw
    · exact beq_iff_eq.mpr hcu
  · intro room hroom hwsmem hwsname hother p hp hpws
    have hnocol : room.any
        (fun c => (c != ws) && (s.wsUsername c == some username)) = false := by
      rw [← Bool.not_eq_true, List.any_eq_true]
      rintro ⟨c, hc, hb⟩
      rw [Bool.and_eq_true] at hb
      exact hother c hc (bne_iff_ne.mp hb.1) (beq_iff_eq.mp hb.2)
    rw [handleJoinRoom_run env s ws roomId username room hr hu hroom hnocol] at hp
    have hp2 : p ∈ (leavePrevJoin env s ws roomId username).2
        ++ [(ws, SMsg.join_success roomId username (joinCount env s ws roomId username))]
        ++ (broadcastToRoom env (joinStateAfter env s ws roomId username) roomId
            (SMsg.user_joined roomId username (joinCount env s ws roomId username))
            (some ws)).2 := hp
    rcases List.mem_append.mp hp2 with hpre | hpost
    · rcases List.mem_append.mp hpre with hpre2 | hmid
      · exact absurd hpws (leavePrevJoin_out env s ws roomId username p hpre2).1
      · have : p = (ws, SMsg.join_success roomId username
            (joinCount env s ws roomId username)) := List.mem_singleton.mp hmid
        rw [this]
        exact ⟨joinCount env s ws roomId username, rfl⟩
    · exact absurd hpws (broadcast_output_exclude _ _ _ _ _ _ hpost).1

/-- Witness for C3: joining the absent room RX is rejected with Room not
found; joining R1 (whose member 0 is alice) as alice from connection 1 is
rejected with the name-taken error; and connection 1, already in R1 as bob in
`stAJ`, re-sending join_room R1/bob only receives join_success replies. -/
theorem join_rejections_w :
    handleJoinRoom env0 stA 1 "RX" "bob" =
      (stA, [(1, SMsg.join_error "RX" "Room not found")])
    ∧ handleJoinRoom env0 stA 1 "R1" "alice" =
      (stA, [(1, SMsg.join_error "R1" "Username already taken in this room")])
    ∧ ∀ p ∈ (handleJoinRoom env0 stAJ 1 "R1" "bob").2, p.1 = 1 →
        ∃ n, p.2 = SMsg.join_success "R1" "bob" n := by
  refine ⟨?_, ?_, ?_⟩
  · exact (join_rejections env0 stA 1 "RX" "bob" (by decide) (by decide)).1 (by decide)
  · exact (join_rejections env0 stA 1 "R1" "alice" (by decide) (by decide)).2.1
      [0] (by decide) ⟨0, by decide, by decide, by decide⟩
  · exact (join_rejections env0 stAJ 1 "R1" "bob" (by decide) (by decide)).2.2
      [0, 1] (by decide) (by decide) (by decide) (by decide)

/-! ### C4 — join reply ordering -/

/-- C4: on every successful join_room, the output sequence is: possible
room-switch notices (never a `user_joined`), then `join_success` with the
current participant count to the joiner, and only after it the `user_joined`
broadcast, from which the joiner is excluded and which reaches every other
deliverable original member of the room. -/
theorem join_reply_ordering (env : Env) (s : ServerState) (ws : ConnId)
    (roomId username : String) (room : List ConnId)
    (hr : roomId ≠ "") (hu : username ≠ "") (hroom : s.rooms roomId = some room)
    (hnocol : room.any (fun c => (c != ws) && (s.wsUsername c == some username)) = false) :
    ∃ pre post,
      (handleJoinRoom env s ws roomId username).2 =
        pre ++ (ws, SMsg.join_success roomId username
          (joinCount env s ws roomId username)) :: post
      ∧ (∀ p ∈ pre, ∀ a b n, p.2 ≠ SMsg.user_joined a b n)
      ∧ (∀ p ∈ post, p.1 ≠ ws)
      ∧ (∀ c ∈ room, c ≠ ws → env.isOpen c = true → env.sendOk c = true →
          (c, SMsg.user_joined roomId username
            (joinCount env s ws roomId username)) ∈ post) := by
  refine ⟨(leavePrevJoin env s ws roomId username).2,
    (broadcastToRoom env (joinStateAfter env s ws roomId username) roomId
      (SMsg.user_joined roomId username (joinCount env s ws roomId username))
      (some ws)).2, ?_, ?_, ?_, ?_⟩
  · rw [handleJoinRoom_run env s ws roomId username room hr hu hroom hnocol]
    show (_ : List (ConnId × SMsg)) ++ [_] ++ _ = _
    rw [List.append_assoc]
    rfl
  · intro p hp a b n
    obtain ⟨_, a2, b2, hswitch⟩ := leavePrevJoin_out env s ws roomId username p hp
    rw [hswitch]
    exact fun hcon => SMsg.noConfusion hcon
  · intro p hp
    exact (broadcast_output_exclude _ _ _ _ _ _ hp).1
  · intro c hc hcw ho hs2
    have hst : (joinStateAfter env s ws roomId username).rooms roomId =
        some (if ws ∈ room then room else room ++ [ws]) := by
      show (roomAdd (leavePrevJoin env s ws roomId username).1 roomId ws).rooms roomId = _
      rw [roomAdd_rooms_self _ _ _ room
        (by rw [leavePrevJoin_rooms_target env s ws roomId username]; exact hroom)]
    exact broadcast_delivers env _ roomId _ (some ws) _ hst c
      (mem_roomAdd_mono room ws c hc) (willDeliver_of env ws c hcw ho hs2)

/-- Witness for C4: connection 1 joining R1 as bob in `stA`. -/
theorem join_reply_ordering_w :
    ∃ pre post,
      (handleJoinRoom env0 stA 1 "R1" "bob").2 =
        pre ++ (1, SMsg.join_success "R1" "bob"
          (joinCount env0 stA 1 "R1" "bob")) :: post
      ∧ (∀ p ∈ pre, ∀ a b n, p.2 ≠ SMsg.user_joined a b n)
      ∧ (∀ p ∈ post, p.1 ≠ 1)
      ∧ (∀ c ∈ [0], c ≠ 1 → env0.isOpen c = true → env0.sendOk c = true →
          (c, SMsg.user_joined "R1" "bob" (joinCount env0 stA 1 "R1" "bob")) ∈ post) :=
  join_reply_ordering env0 stA 1 "R1" "bob" [0]
    (by decide) (by decide) (by decide) (by decide)

/-! ### C5 — create_room idempotence on the room identifier -/

/-- C5: a create_room for an already-existing room (with any creator name)
leaves every recorded creator unchanged, while still performing the join side
effects: the requester is added to the member set and bound to the room,
receives `room_created`, and `user_joined` is broadcast to the other
deliverable members, the requester excluded. -/
theorem create_idempotent (env : Env) (s : ServerState) (ws : ConnId)
    (roomId username : String) (hr : roomId ≠ "") (hu : username ≠ "")
    (hex : (s.rooms roomId).isSome = true) :
    (handleCreateRoom env s ws roomId username).1.roomCreators = s.roomCreators
    ∧ ws ∈ members (handleCreateRoom env s ws roomId username).1 roomId
    ∧ (handleCreateRoom env s ws roomId username).1.userRooms ws = some roomId
    ∧ ∃ pre post,
        (handleCreateRoom env s ws roomId username).2 =
          pre ++ (ws, SMsg.room_created roomId username) :: post
        ∧ (∀ p ∈ post, p.1 ≠ ws)
        ∧ (∀ c ∈ members s roomId, c ≠ ws → env.isOpen c = true → env.sendOk c = true →
            (c, SMsg.user_joined_create roomId username) ∈ post) := by
  have hbase : createBase s roomId username = s := if_pos hex
  have hrun := handleCreateRoom_run env s ws roomId username hr hu
  have hsomeAfter : ((createStateAfter env s ws roomId username).rooms roomId).isSome
      = true := by
    show ((roomAdd (leavePrevCreate env (createBase s roomId username) ws username).1
        roomId ws).rooms roomId).isSome = true
    obtain ⟨l2, hl2⟩ := Option.isSome_iff_exists.mp
      (by rw [leavePrevCreate_rooms_isSome, hbase]; exact hex :
        ((leavePrevCreate env (createBase s roomId username) ws username).1.rooms
          roomId).isSome = true)
    rw [roomAdd_rooms_self _ _ _ l2 hl2]
    rfl
  obtain ⟨room3, hroom3⟩ := Option.isSome_iff_exists.mp hsomeAfter
  have hwsmem3 : ws ∈ members (createStateAfter env s ws roomId username) roomId := by
    obtain ⟨l2, hl2⟩ := Option.isSome_iff_exists.mp
      (by rw [leavePrevCreate_rooms_isSome, hbase]; exact hex :
        ((leavePrevCreate env (createBase s roomId username) ws username).1.rooms
          roomId).isSome = true)
    show ws ∈ members (roomAdd (leavePrevCreate env (createBase s roomId username)
      ws username).1 roomId ws) roomId
    unfold members
    rw [roomAdd_rooms_self _ _ _ l2 hl2]
    exact mem_roomAdd_self l2 ws
  refine ⟨?_, ?_, ?_, ?_⟩
  · rw [hrun]
    show (broadcastToRoom env (createStateAfter env s ws roomId username) roomId
      (SMsg.user_joined_create roomId username) (some ws)).1.roomCreators = _
    rw [broadcastToRoom_roomCreators]
    show (leavePrevCreate env (createBase s roomId username) ws username).1.roomCreators = _
    rw [leavePrevCreate_roomCreators, hbase]
  · rw [hrun]
    show ws ∈ members (broadcastToRoom env (createStateAfter env s ws roomId username)
      roomId (SMsg.user_joined_create roomId username) (some ws)).1 roomId
    rw [broadcastToRoom_eq env _ roomId _ (some ws) room3 hroom3]
    refine (pruneFold_mem_room env (some ws) roomId room3 _ ws).mpr ⟨?_, ?_⟩
    · unfold members at hwsmem3 ⊢
      exact hwsmem3
    · rintro ⟨_, hsp⟩
      simp [shouldPrune] at hsp
  · rw [hrun]
    show (broadcastToRoom env (createStateAfter env s ws roomId username) roomId
      (SMsg.user_joined_create roomId username) (some ws)).1.userRooms ws = some roomId
    rw [broadcastToRoom_eq env _ roomId _ (some ws) room3 hroom3]
    rw [pruneFold_userRooms]
    rw [if_neg (by rintro ⟨_, hsp⟩; simp [shouldPrune] at hsp)]
    show (if ws = ws then some roomId
      else (roomAdd (leavePrevCreate env (createBase s roomId username) ws
        username).1 roomId ws).userRooms ws) = some roomId
    rw [if_pos rfl]
  · refine ⟨(leavePrevCreate env (createBase s roomId username) ws username).2,
      (broadcastToRoom env (createStateAfter env s ws roomId username) roomId
        (SMsg.user_joined_create roomId username) (some ws)).2, ?_, ?_, ?_⟩
    · rw [hrun]
      show (_ : List (ConnId × SMsg)) ++ [_] ++ _ = _
      rw [List.append_assoc]
      rfl
    · intro p hp
      exact (broadcast_output_exclude _ _ _ _ _ _ hp).1
    · intro c hc hcw ho hs2
      have hc3 : c ∈ members (createStateAfter env s ws roomId username) roomId := by
        have hc1 : c ∈ members (createBase s roomId username) roomId := by
          rw [hbase]; exact hc
        have hc2 := leavePrevCreate_mem_preserved env (createBase s roomId username)
          ws username roomId c hc1 hcw hs2
        obtain ⟨l2, hl2⟩ := Option.isSome_iff_exists.mp
          (by rw [leavePrevCreate_rooms_isSome, hbase]; exact hex :
            ((leavePrevCreate env (createBase s roomId username) ws username).1.rooms
              roomId).isSome = true)
        show c ∈ members (roomAdd (leavePrevCreate env (createBase s roomId username)
          ws username).1 roomId ws) roomId
        unfold members at hc2 ⊢
        rw [hl2] at hc2
        rw [roomAdd_rooms_self _ _ _ l2 hl2]
        exact mem_roomAdd_mono l2 ws c hc2
      have hcmem : c ∈ room3 := by
        unfold members at hc3
        rw [hroom3] at hc3
        exact hc3
      exact broadcast_delivers env _ roomId _ (some ws) room3 hroom3 c hcmem
        (willDeliver_of env ws c hcw ho hs2)

/-- Witness for C5: connection 1 re-creating the existing room R1 (creator
alice) under the name zed: the creator record is untouched, 1 is added and
bound, receives `room_created`, and member 0 is notified with
`user_joined`. -/
theorem create_idempotent_w :
    (handleCreateRoom env0 stA 1 "R1" "zed").1.roomCreators = stA.roomCreators
    ∧ 1 ∈ members (handleCreateRoom env0 stA 1 "R1" "zed").1 "R1"
    ∧ (handleCreateRoom env0 stA 1 "R1" "zed").1.userRooms 1 = some "R1"
    ∧ ∃ pre post,
        (handleCreateRoom env0 stA 1 "R1" "zed").2 =
          pre ++ (1, SMsg.room_created "R1" "zed") :: post
        ∧ (∀ p ∈ post, p.1 ≠ 1)
        ∧ (∀ c ∈ members stA "R1", c ≠ 1 → env0.isOpen c = true →
            env0.sendOk c = true →
            (c, SMsg.user_joined_create "R1" "zed") ∈ post) :=
  create_idempotent env0 stA 1 "R1" "zed" (by decide) (by decide) (by decide)

/-! ### C7 — chat_message behavior -/

/-- C7: a chat_message with missing roomId or payload is answered with a
missing-field error and no state change; one whose sender is not currently a
member of the named room (the room being absent or the member set not
containing the sender) is answered with You-are-not-in-this-room and no state
change; and one from a current member is broadcast — every other deliverable
member receives a `chat_message` carrying the original payload fields plus
the server receipt timestamp, while the sender receives nothing. -/
theorem chat_message_behavior (env : Env) (s : ServerState) (ws : ConnId)
    (roomId : String) (payload : Option ChatPayload) :
    ((roomId = "" ∨ payload = none) →
      handleChatMessage env s ws roomId payload =
        (s, [(ws, SMsg.error "Room ID and message are required")]))
    ∧ (roomId ≠ "" → payload ≠ none → s.rooms roomId = none →
      handleChatMessage env s ws roomId payload =
        (s, [(ws, SMsg.error "You are not in this room")]))
    ∧ (∀ room, roomId ≠ "" → payload ≠ none → s.rooms roomId = some room →
        ws ∉ room →
      handleChatMessage env s ws roomId payload =
        (s, [(ws, SMsg.error "You are not in this room")]))
    ∧ (∀ room cm, roomId ≠ "" → payload = some cm → s.rooms roomId = some room →
        ws ∈ room →
      (∀ c ∈ room, c ≠ ws → env.isOpen c = true → env.sendOk c = true →
        (c, SMsg.chat_message roomId
          { author := cm.author, text := cm.text, serverTimestamp := env.now,
            roomId := roomId }) ∈ (handleChatMessage env s ws roomId payload).2)
      ∧ (∀ p ∈ (handleChatMessage env s ws roomId payload).2, p.1 ≠ ws)) := by
  refine ⟨?_, ?_, ?_, ?_⟩
  · intro h
    exact handleChatMessage_missing env s ws roomId payload h
  · intro hr hp h
    exact handleChatMessage_noroom env s ws roomId payload hr hp h
  · intro room hr hp h hmem
    exact handleChatMessage_notmember env s ws roomId payload room hr hp h hmem
  · intro room cm hr hp h hmem
    subst hp
    rw [handleChatMessage_run env s ws roomId cm room hr h hmem]
    constructor
    · intro c hc hcw ho hs2
      refine broadcast_delivers env s roomId _ (some ws) room h c hc
        (willDeliver_of env ws c hcw ho hs2)
    · intro p hp2
      exact (broadcast_output_exclude _ _ _ _ _ _ hp2).1

/-- Witness for C7: in `stAJ` (members 0 and 1 of R1), a missing payload from
1 yields the missing-field error, a chat from the non-member 2 yields the
membership error, and a chat from 1 delivers the stamped payload to 0 only. -/
theorem chat_message_behavior_w :
    handleChatMessage env0 stAJ 1 "R1" none =
      (stAJ, [(1, SMsg.error "Room ID and message are required")])
    ∧ handleChatMessage env0 stAJ 2 "R1"
        (some { author := "eve", text := "hi" }) =
      (stAJ, [(2, SMsg.error "You are not in this room")])
    ∧ (0, SMsg.chat_message "R1"
        { author := "bob", text := "hi", serverTimestamp := 0, roomId := "R1" })
      ∈ (handleChatMessage env0 stAJ 1 "R1"
          (some { author := "bob", text := "hi" })).2
    ∧ (∀ p ∈ (handleChatMessage env0 stAJ 1 "R1"
          (some { author := "bob", text := "hi" })).2, p.1 ≠ 1) := by
  refine ⟨?_, ?_, ?_, ?_⟩
  · exact (chat_message_behavior env0 stAJ 1 "R1" none).1 (Or.inr rfl)
  · exact (chat_message_behavior env0 stAJ 2 "R1"
      (some { author := "eve", text := "hi" })).2.2.1 [0, 1]
      (by decide) (by decide) (by decide) (by decide)
  · exact ((chat_message_behavior env0 stAJ 1 "R1"
      (some { author := "bob", text := "hi" })).2.2.2 [0, 1]
      { author := "bob", text := "hi" } (by decide) rfl (by decide) (by decide)).1
      0 (by decide) (by decide) (by decide) (by decide)
  · exact ((chat_message_behavior env0 stAJ 1 "R1"
      (some { author := "bob", text := "hi" })).2.2.2 [0, 1]
      { author := "bob", text := "hi" } (by decide) rfl (by decide) (by decide)).2

/-! ### C1 — binding/membership agreement -/

/-- C1 counterexample: the state reached by create(0,R1,alice),
create(1,R2,bob), then leave_room from 0 naming R2 is reachable, and in it
connection 0 sits in R1's member set while the ConnectionRegistry no longer
maps it to R1 — the claimed two-way agreement fails. -/
theorem binding_invariant_cex :
    Reachable stForeign
    ∧ 0 ∈ members stForeign "R1"
    ∧ stForeign.userRooms 0 ≠ some "R1" := by
  refine ⟨?_, by decide, by decide⟩
  exact Reachable.leave env0 0 "R2"
    (Reachable.create env0 1 "R2" "bob"
      (Reachable.create env0 0 "R1" "alice" Reachable.init))

/-- C1 as amended: in every reachable state the binding-to-membership
direction of the agreement holds — a connection the ConnectionRegistry maps
to room R is in R's member set, and the connection's `ws.roomId` field
agrees.  (The converse direction of the original claim — a member set entry
is always bound — fails; see the counterexample.) -/
theorem binding_invariant_amended (s : ServerState) (hreach : Reachable s)
    (ws : ConnId) (R : String) (hb : s.userRooms ws = some R) :
    s.wsRoomId ws = some R ∧ ws ∈ members s R :=
  bindingInv_reachable s hreach ws R hb

/-- Witness for the amended C1 at the reachable state `stA`. -/
theorem binding_invariant_amended_w :
    stA.wsRoomId 0 = some "R1" ∧ 0 ∈ members stA "R1" :=
  binding_invariant_amended stA
    (Reachable.create env0 0 "R1" "alice" Reachable.init) 0 "R1" (by decide)

/-! ### C8 — leave/disconnect postcondition -/

/-- C8 counterexample: in the reachable state `stAB` connection 0 is bound to
R1; after its leave_room naming the existing room R2 completes, the binding
is cleared but 0 is still in R1's member set, contradicting the claimed
postcondition for leave_room. -/
theorem leave_disconnect_post_cex :
    Reachable stAB
    ∧ stAB.userRooms 0 = some "R1"
    ∧ (handleLeaveRoom env0 stAB 0 "R2").1.userRooms 0 = none
    ∧ 0 ∈ members (handleLeaveRoom env0 stAB 0 "R2").1 "R1" := by
  refine ⟨?_, by decide, by decide, by decide⟩
  exact Reachable.create env0 1 "R2" "bob"
    (Reachable.create env0 0 "R1" "alice" Reachable.init)

/-- C8 as amended: for every connection bound to room R in a reachable state,
a leave_room that omits roomId or names R itself, and a transport-level
disconnect, all clear the connection's binding and remove it from R's member
set.  (A leave_room naming a different existing room clears the binding but
leaves the membership behind: see the counterexample.) -/
theorem leave_disconnect_post_amended (env : Env) (s : ServerState) (ws : ConnId)
    (R : String) (hreach : Reachable s) (hb : s.userRooms ws = some R) :
    ((handleLeaveRoom env s ws "").1.userRooms ws = none
      ∧ ws ∉ members (handleLeaveRoom env s ws "").1 R)
    ∧ ((handleLeaveRoom env s ws R).1.userRooms ws = none
      ∧ ws ∉ members (handleLeaveRoom env s ws R).1 R)
    ∧ ((handleUserDisconnect env s ws).1.userRooms ws = none
      ∧ ws ∉ members (handleUserDisconnect env s ws).1 R) := by
  obtain ⟨hsync, hmem⟩ := bindingInv_reachable s hreach ws R hb
  have hroomS : ∃ room, s.rooms R = some room := by
    cases hx : s.rooms R with
    | none =>
      unfold members at hmem
      rw [hx] at hmem
      exact absurd hmem (List.not_mem_nil ws)
    | some room => exact ⟨room, rfl⟩
  obtain ⟨room, hroom⟩ := hroomS
  have key : ∀ m, ((if m ≠ "" then some m else s.wsRoomId ws) = some R) →
      (handleLeaveRoom env s ws m).1.userRooms ws = none
      ∧ ws ∉ members (handleLeaveRoom env s ws m).1 R := by
    intro m hres
    rw [handleLeaveRoom_run env s ws m R room hres hroom]
    constructor
    · show (broadcastToRoom env (unbind (roomDel s R ws) ws) R
        (SMsg.user_left R (s.wsUsername ws)
          (members (unbind (roomDel s R ws) ws) R).length) none).1.userRooms ws = none
      apply broadcastToRoom_userRooms_none
      show (if ws = ws then none else (roomDel s R ws).userRooms ws) = none
      rw [if_pos rfl]
    · intro hcon
      have hcon2 : ws ∈ members (broadcastToRoom env (unbind (roomDel s R ws) ws) R
        (SMsg.user_left R (s.wsUsername ws)
          (members (unbind (roomDel s R ws) ws) R).length) none).1 R := hcon
      have hcon3 := broadcastToRoom_mem_mono env _ R _ none R ws hcon2
      have hcon4 : ws ∈ members (roomDel s R ws) R := hcon3
      exact ((mem_members_roomDel s R ws R ws).mp hcon4).2 rfl rfl
  refine ⟨?_, ?_, ?_⟩
  · exact key "" (by rw [if_neg (fun hc => hc rfl)]; exact hsync)
  · by_cases hR : R = ""
    · subst hR
      exact key "" (by rw [if_neg (fun hc => hc rfl)]; exact hsync)
    · exact key R (if_pos hR)
  · cases hu : s.wsUsername ws with
    | some u =>
      rw [handleUserDisconnect_run env s ws R room u hsync hroom hu]
      constructor
      · apply broadcastToRoom_userRooms_none
        show (if ws = ws then none else (roomDel s R ws).userRooms ws) = none
        rw [if_pos rfl]
      · intro hcon
        have hcon3 := broadcastToRoom_mem_mono env _ R _ none R ws hcon
        have hcon4 : ws ∈ members (roomDel s R ws) R := hcon3
        exact ((mem_members_roomDel s R ws R ws).mp hcon4).2 rfl rfl
    | none =>
      rw [handleUserDisconnect_run_anon env s ws R room hsync hroom hu]
      constructor
      · show (if ws = ws then none else (roomDel s R ws).userRooms ws) = none
        rw [if_pos rfl]
      · intro hcon
        have hcon4 : ws ∈ members (roomDel s R ws) R := hcon
        exact ((mem_members_roomDel s R ws R ws).mp hcon4).2 rfl rfl

/-- Witness for the amended C8 at `stA`, where connection 0 is bound to R1. -/
theorem leave_disconnect_post_amended_w :
    ((handleLeaveRoom env0 stA 0 "").1.userRooms 0 = none
      ∧ 0 ∉ members (handleLeaveRoom env0 stA 0 "").1 "R1")
    ∧ ((handleLeaveRoom env0 stA 0 "R1").1.userRooms 0 = none
      ∧ 0 ∉ members (handleLeaveRoom env0 stA 0 "R1").1 "R1")
    ∧ ((handleUserDisconnect env0 stA 0).1.userRooms 0 = none
      ∧ 0 ∉ members (handleUserDisconnect env0 stA 0).1 "R1") :=
  leave_disconnect_post_amended env0 stA 0 "R1"
    (Reachable.create env0 0 "R1" "alice" Reachable.init) (by decide)

/-! ### C2 — display-name uniqueness -/

/-- Pruning during a broadcast only ever removes members, so any no-duplicate
property of the mapped member list survives it. -/
theorem pruneFold_map_nodup (env : Env) (ex : Option ConnId) (roomId : String)
    (l : List ConnId) (st : ServerState) (f : ConnId → Option String)
    (h : ((members st roomId).map f).Nodup) :
    ((members (pruneFold env ex roomId l st) roomId).map f).Nodup := by
  induction l generalizing st with
  | nil => exact h
  | cons c t ih =>
    unfold pruneFold at ih ⊢
    rw [List.foldl_cons]
    by_cases hc : shouldPrune env ex c = true
    · rw [if_pos hc]
      apply ih
      have hsub : List.Sublist (members (pruneOne st roomId c) roomId)
          (members st roomId) := by
        show List.Sublist (((if roomId = roomId then
          (st.rooms roomId).map (fun l2 => l2.filter (fun x => x != c))
          else st.rooms roomId)).getD []) ((st.rooms roomId).getD [])
        rw [if_pos rfl]
        cases st.rooms roomId with
        | none => exact List.Sublist.refl []
        | some l2 => exact List.filter_sublist l2
      exact List.Nodup.sublist (List.Sublist.map f hsub) h
    · rw [if_neg hc]
      exact ih st h

/-- C2 counterexample: after create(0,R1,alice) a second create_room from
connection 1 targeting the existing room R1 with the same name alice is
accepted without any name check, leaving R1 with two members both displaying
alice — a reachable state violating the claimed invariant. -/
theorem names_distinct_cex :
    Reachable stDup
    ∧ members stDup "R1" = [0, 1]
    ∧ stDup.wsUsername 0 = some "alice"
    ∧ stDup.wsUsername 1 = some "alice"
    ∧ ¬NamesDistinct stDup "R1" := by
  refine ⟨?_, by decide, by decide, by decide, by unfold NamesDistinct; decide⟩
  exact Reachable.create env0 1 "R1" "alice"
    (Reachable.create env0 0 "R1" "alice" Reachable.init)

/-- C2 as amended: join_room preserves per-room distinctness of display names
(the collision check guarantees the joiner's name differs from every other
member of the target room), and a create_room that actually creates its room
leaves it with the single member it just added; but a create_room targeting
an already-existing room performs no name check and can produce duplicates
(see the counterexample). -/
theorem names_distinct_amended (env : Env) (s : ServerState) (ws : ConnId)
    (roomId username : String) :
    (NamesDistinct s roomId →
      NamesDistinct (handleJoinRoom env s ws roomId username).1 roomId)
    ∧ (roomId ≠ "" → username ≠ "" → s.rooms roomId = none →
      members (handleCreateRoom env s ws roomId username).1 roomId = [ws]
      ∧ (handleCreateRoom env s ws roomId username).1.wsUsername ws = some username) := by
  constructor
  · intro hd
    by_cases hg : roomId = "" ∨ username = ""
    · rw [handleJoinRoom_missing env s ws roomId username hg]; exact hd
    · have hr : roomId ≠ "" := fun hc => hg (Or.inl hc)
      have hu : username ≠ "" := fun hc => hg (Or.inr hc)
      cases hroom : s.rooms roomId with
      | none => rw [handleJoinRoom_notfound env s ws roomId username hr hu hroom]; exact hd
      | some room =>
        by_cases hcol : room.any
            (fun c => (c != ws) && (s.wsUsername c == some username)) = true
        · rw [handleJoinRoom_taken env s ws roomId username room hr hu hroom hcol]
          exact hd
        · have hnocol := Bool.eq_false_iff.mpr hcol
          have hno : ∀ c ∈ room, c ≠ ws → s.wsUsername c ≠ some username := by
            intro c hc hcw hcu
            apply hcol
            rw [List.any_eq_true]
            refine ⟨c, hc, ?_⟩
            rw [Bool.and_eq_true]
            exact ⟨bne_iff_ne.mpr hcw, beq_iff_eq.mpr hcu⟩
          have hmem3 : (joinStateAfter env s ws roomId username).rooms roomId
              = some (if ws ∈ room then room else room ++ [ws]) := by
            show (roomAdd (leavePrevJoin env s ws roomId username).1 roomId ws).rooms
              roomId = _
            rw [roomAdd_rooms_self _ _ _ room
              (by rw [leavePrevJoin_rooms_target]; exact hroom)]
          have hname3 : ∀ x, (joinStateAfter env s ws roomId username).wsUsername x
              = if x = ws then some username else s.wsUsername x := by
            intro x
            by_cases hx : x = ws
            · show (if x = ws then some username
                else (roomAdd (leavePrevJoin env s ws roomId username).1 roomId
                  ws).wsUsername x) = _
              rw [if_pos hx, if_pos hx]
            · show (if x = ws then some username
                else (roomAdd (leavePrevJoin env s ws roomId username).1 roomId
                  ws).wsUsername x) = _
              rw [if_neg hx, if_neg hx]
              show (leavePrevJoin env s ws roomId username).1.wsUsername x
                = s.wsUsername x
              rw [leavePrevJoin_wsUsername]
          have hpair : room.Pairwise (fun a b => s.wsUsername a ≠ s.wsUsername b) := by
            have hd2 : ((members s roomId).map s.wsUsername).Nodup := hd
            have hms : members s roomId = room := by
              unfold members
              rw [hroom]
              rfl
            rw [hms] at hd2
            have hd4 : (room.map s.wsUsername).Pairwise (fun a b => a ≠ b) := hd2
            exact List.pairwise_map.mp hd4
          have hd3 : NamesDistinct (joinStateAfter env s ws roomId username) roomId := by
            show ((members (joinStateAfter env s ws roomId username) roomId).map
              (joinStateAfter env s ws roomId username).wsUsername).Pairwise
                (fun a b => a ≠ b)
            rw [List.pairwise_map]
            have hmm : members (joinStateAfter env s ws roomId username) roomId
                = (if ws ∈ room then room else room ++ [ws]) := by
              unfold members
              rw [hmem3]
              rfl
            rw [hmm]
            by_cases hwsr : ws ∈ room
            · rw [if_pos hwsr]
              refine List.Pairwise.imp_of_mem ?_ hpair
              intro a b ha hb hab
              rw [hname3 a, hname3 b]
              by_cases haw : a = ws
              · by_cases hbw : b = ws
                · rw [haw, hbw] at hab
                  exact absurd rfl hab
                · rw [if_pos haw, if_neg hbw]
                  exact fun hcon => hno b hb hbw hcon.symm
              · by_cases hbw : b = ws
                · rw [if_neg haw, if_pos hbw]
                  exact fun hcon => hno a ha haw hcon
                · rw [if_neg haw, if_neg hbw]
                  exact hab
            · rw [if_neg hwsr]
              rw [List.pairwise_append]
              refine ⟨?_, ?_, ?_⟩
              · refine List.Pairwise.imp_of_mem ?_ hpair
                intro a b ha hb hab
                have haw : a ≠ ws := fun hc => hwsr (hc ▸ ha)
                have hbw : b ≠ ws := fun hc => hwsr (hc ▸ hb)
                rw [hname3 a, hname3 b, if_neg haw, if_neg hbw]
                exact hab
              · exact List.pairwise_singleton _ _
              · intro a ha b hb
                have hbws : b = ws := List.mem_singleton.mp hb
                have haw : a ≠ ws := fun hc => hwsr (hc ▸ ha)
                rw [hname3 a, hname3 b, if_neg haw, if_pos hbws]
                exact fun hcon => hno a ha haw hcon
          rw [handleJoinRoom_run env s ws roomId username room hr hu hroom hnocol]
          show NamesDistinct (broadcastToRoom env
            (joinStateAfter env s ws roomId username) roomId
            (SMsg.user_joined roomId username (joinCount env s ws roomId username))
            (some ws)).1 roomId
          rw [broadcastToRoom_eq env _ roomId _ (some ws) _ hmem3]
          unfold NamesDistinct
          rw [pruneFold_wsUsername]
          exact pruneFold_map_nodup env (some ws) roomId _ _ _ hd3
  · intro hr hu hfresh
    have hbase : (createBase s roomId username).rooms roomId = some [] := by
      unfold createBase
      rw [if_neg (by rw [hfresh]; exact Bool.false_ne_true)]
      show (if roomId = roomId then some [] else s.rooms roomId) = some []
      rw [if_pos rfl]
    have hL : (leavePrevCreate env (createBase s roomId username) ws
        username).1.rooms roomId = some [] := by
      cases hur : (createBase s roomId username).userRooms ws with
      | none => rw [leavePrevCreate_unregistered env _ ws username hur]; exact hbase
      | some prev =>
        by_cases hh : ((createBase s roomId username).rooms prev).isSome = true
        · rw [leavePrevCreate_has env _ ws username prev hur hh]
          by_cases hpr : prev = roomId
          · subst hpr
            have hrd : (roomDel (createBase s prev username) prev ws).rooms prev
                = some [] := by
              show (if prev = prev then ((createBase s prev username).rooms prev).map
                (fun l => l.filter (fun c => c != ws))
                else (createBase s prev username).rooms prev) = some []
              rw [if_pos rfl, hbase]
              rfl
            rw [broadcastToRoom_eq env _ prev _ (some ws) [] hrd]
            show (pruneFold env (some ws) prev []
              (roomDel (createBase s prev username) prev ws)).rooms prev = some []
            exact hrd
          · have hrne : roomId ≠ prev := fun hc => hpr hc.symm
            cases hx : (roomDel (createBase s roomId username) prev ws).rooms prev with
            | none =>
              rw [broadcastToRoom_absent env _ prev _ (some ws) hx]
              rw [roomDel_rooms_other _ prev ws roomId hrne]
              exact hbase
            | some rm =>
              rw [broadcastToRoom_eq env _ prev _ (some ws) rm hx]
              show (pruneFold env (some ws) prev rm
                (roomDel (createBase s roomId username) prev ws)).rooms roomId = some []
              rw [pruneFold_rooms_other env (some ws) prev rm _ roomId hrne]
              rw [roomDel_rooms_other _ prev ws roomId hrne]
              exact hbase
        · rw [leavePrevCreate_gone env _ ws username prev hur (Bool.eq_false_iff.mpr hh)]
          exact hbase
    have hadd : (createStateAfter env s ws roomId username).rooms roomId
        = some [ws] := by
      show (roomAdd (leavePrevCreate env (createBase s roomId username) ws
        username).1 roomId ws).rooms roomId = some [ws]
      rw [roomAdd_rooms_self _ _ _ [] hL]
      rw [if_neg (List.not_mem_nil ws)]
      rfl
    have hfin : (handleCreateRoom env s ws roomId username).1.rooms roomId
        = some [ws] := by
      rw [handleCreateRoom_run env s ws roomId username hr hu]
      show (broadcastToRoom env (createStateAfter env s ws roomId username) roomId
        (SMsg.user_joined_create roomId username) (some ws)).1.rooms roomId = some [ws]
      rw [broadcastToRoom_eq env _ roomId _ (some ws) [ws] hadd]
      have hsp : shouldPrune env (some ws) ws = false := by simp [shouldPrune]
      show ((if shouldPrune env (some ws) ws = true then
        pruneOne (createStateAfter env s ws roomId username) roomId ws
        else createStateAfter env s ws roomId username)).rooms roomId = some [ws]
      rw [if_neg (by rw [hsp]; exact Bool.false_ne_true)]
      exact hadd
    constructor
    · unfold members
      rw [hfin]
      rfl
    · rw [handleCreateRoom_run env s ws roomId username hr hu]
      show (broadcastToRoom env (createStateAfter env s ws roomId username) roomId
        (SMsg.user_joined_create roomId username) (some ws)).1.wsUsername ws
        = some username
      rw [broadcastToRoom_wsUsername]
      show (if ws = ws then some username else
        (roomAdd (leavePrevCreate env (createBase s roomId username) ws username).1
          roomId ws).wsUsername ws) = some username
      rw [if_pos rfl]

/-- Witness for the amended C2: a join preserving distinctness in `stA` and a
fresh create from the empty state. -/
theorem names_distinct_amended_w :
    NamesDistinct (handleJoinRoom env0 stA 1 "R1" "bob").1 "R1"
    ∧ (members (handleCreateRoom env0 initState 0 "R1" "alice").1 "R1" = [0]
      ∧ (handleCreateRoom env0 initState 0 "R1" "alice").1.wsUsername 0
        = some "alice") :=
  ⟨(names_distinct_amended env0 stA 1 "R1" "bob").1 (by unfold NamesDistinct; decide),
   (names_distinct_amended env0 initState 0 "R1" "alice").2
     (by decide) (by decide) (by decide)⟩

end HippoChat
